import Mathlib

/-!
# demoddix Tracer: shallow embedding of `src/tracer.cpp`

The Tracer subsystem keeps one `Tracer` record per simulated node (status, port,
socket), launches an external viewer per node (`Tracer::Launch`), polls the
connections (`Tracer::Poll`) and translates trace records into viewer commands
(`Tracer::Send`).

Modelling conventions.

* Machine integers are natural numbers holding the bit pattern of the C object
  (`unsigned long`, `unsigned long long`: 64 bit; `unsigned int`, `int`: 32 bit, LP64).
* The operating system is an explicit oracle argument: address resolution and the
  outcome of `socket`, `fcntl`, `setsockopt`, `bind`, `connect` and `write`.
  A `write` on a negative descriptor always fails (EBADF).
* Every operation returns `Option State`; `none` stands for an execution that has no
  defined result: an out-of-range `operator[]`, a buffer overrun, `std::terminate`,
  or a `join` that waits for a worker that has not finished.
* The state carries a ghost `log` of the externally visible actions (port probes,
  thread creation, connects, writes, joins).
-/

namespace Demoddix

/-! ## Data model -/

/-- Status of a tracer (`Tracer::IDLE`, `Tracer::OPENED`, `Tracer::CONNECTED`, `Tracer::CLOSED`). -/
inductive Status
  | IDLE
  | OPENED
  | CONNECTED
  | CLOSED
deriving DecidableEq, Repr

/-- One element of `Tracer::tracerList`: the three fields read and written through the
accessors `status()`, `port()` and `sock()`. -/
structure Tracer where
  status : Status
  port : Nat
  sock : Int
deriving DecidableEq, Repr

/-- One element of `Tracer::threadList`: a `std::thread` that is either not joinable
(`absent`), or runs the lambda of `Launch` lines 144-148 and is before line 145 (`spawned`),
inside `std::system` (`running`) or past line 147 (`finished`). -/
inductive Worker
  | absent
  | spawned
  | running
  | finished
deriving DecidableEq, Repr

/-- Externally visible actions, recorded in program order. -/
inductive Event
  | probe (port : Nat)
  | spawn (id : Nat) (port : Nat)
  | exec (id : Nat) (port : Nat)
  | connect (id : Nat) (sock : Int) (ok : Bool)
  | write (id : Nat) (sock : Int) (text : List Char) (ok : Bool)
  | join (id : Nat)
deriving DecidableEq, Repr

/-- The static members `tracerList` and `threadList`, with the ghost log. -/
structure State where
  tracerList : List Tracer
  threadList : List Worker
  log : List Event
deriving DecidableEq, Repr

/-- Modelled from the spec: the constructor of `Tracer` (declared in `demoddix.hpp`) and
`Tracer::Open`, lines 58-59: `n` tracers, all IDLE, port 0, no connection, and `n` threads,
none joinable. -/
def initial (n : Nat) : State :=
  { tracerList := List.replicate n { status := Status.IDLE, port := 0, sock := -1 }
    threadList := List.replicate n Worker.absent
    log := [] }

/-! ## Port allocation (`Tracer::Launch`, lines 86-140) -/

/-- Outcome of the system calls made for one resolved address, lines 109-127. -/
structure BindAttempt where
  socketOk : Bool
  getflOk : Bool
  setflOk : Bool
  reuseOk : Bool
  bindOk : Bool
deriving DecidableEq, Repr

/-- Address resolution oracle: `getaddrinfo(NULL, port, ...)`; `none` is a non-zero return. -/
abbrev Resolver := Nat → Option (List BindAttempt)

/-- The loop over `rp`, lines 108-128: `true` iff it is left by `break` (`rp != NULL`). -/
def tryBind : List BindAttempt → Bool
  | [] => false
  | a :: rest =>
    if a.socketOk = false then tryBind rest
    else if a.getflOk = false then tryBind rest
    else if a.setflOk = false then tryBind rest
    else if a.reuseOk && a.bindOk then true
    else tryBind rest

/-- Body of the port loop for one candidate, lines 100-134: `true` iff the loop is left. -/
def probePort (net : Resolver) (p : Nat) : Bool :=
  match net p with
  | none => false
  | some addrs => tryBind addrs

/-- Ports held by the tracers, lines 87-92. -/
def usedPorts : List Tracer → List Nat
  | [] => []
  | t :: ts => if t.port > 0 then t.port :: usedPorts ts else usedPorts ts

/-- The loop `for (; p > 0; --p)`, lines 96-135, started at `p`: the value of `p` after the
loop and the candidates that were probed. -/
def scanPorts (net : Resolver) (used : List Nat) : Nat → Nat × List Nat
  | 0 => (0, [])
  | p + 1 =>
    if (p + 1) ∈ used then scanPorts net used p
    else if probePort net (p + 1) then (p + 1, [p + 1])
    else ((scanPorts net used p).1, (p + 1) :: (scanPorts net used p).2)

/-- Value of `USHRT_MAX`. -/
def USHRT_MAX : Nat := 65535

/-- Replace the tracer at index `id`. -/
def State.setTracer (s : State) (id : Nat) (t : Tracer) : State :=
  { s with tracerList := s.tracerList.set id t }

/-- Replace the thread at index `id`. -/
def State.setThread (s : State) (id : Nat) (w : Worker) : State :=
  { s with threadList := s.threadList.set id w }

/-- Append events to the log. -/
def State.emit (s : State) (es : List Event) : State :=
  { s with log := s.log ++ es }

/-- `Tracer::Launch(id)`, lines 78-149. The worker thread is created but has not run. -/
def Launch (net : Resolver) (id : Nat) (s : State) : Option State :=
  match s.tracerList[id]? with
  | none => none
  | some t =>
    if t.status ≠ Status.IDLE then some s
    else
      let r := scanPorts net (usedPorts s.tracerList) USHRT_MAX
      let s1 := s.emit (r.2.map Event.probe)
      if r.1 = 0 then some s1
      else
        match s1.threadList[id]? with
        | some Worker.absent =>
          some (((s1.setTracer id { t with port := r.1 }).setThread id Worker.spawned).emit
            [Event.spawn id r.1])
        | _ => none

/-- The worker thread of `id` executes line 145 and enters `std::system`, line 146. -/
def workerStart (id : Nat) (s : State) : Option State :=
  match s.threadList[id]?, s.tracerList[id]? with
  | some Worker.spawned, some t =>
    some (((s.setTracer id { t with status := Status.OPENED }).setThread id Worker.running).emit
      [Event.exec id t.port])
  | _, _ => none

/-- The external process of `id` has ended: the worker thread executes line 147. -/
def workerExit (id : Nat) (s : State) : Option State :=
  match s.threadList[id]?, s.tracerList[id]? with
  | some Worker.running, some t =>
    some ((s.setTracer id { t with status := Status.CLOSED }).setThread id Worker.finished)
  | _, _ => none

/-! ## Polling (`Tracer::Poll`, lines 152-218) -/

/-- Outcome of the system calls made for one resolved address in the OPENED branch,
lines 171-191: the descriptor returned by `socket` (`none` is a negative return), the two
`fcntl` calls and `connect`. -/
structure ConnectAttempt where
  socket : Option Nat
  getflOk : Bool
  setflOk : Bool
  connectOk : Bool
deriving DecidableEq, Repr

/-- What the operating system answers while one tracer is polled: the result of
`getaddrinfo` (`none` is a non-zero return) and whether the keepalive `write` succeeds. -/
structure PollOracle where
  addrs : Option (List ConnectAttempt)
  writeOk : Bool
deriving DecidableEq, Repr

/-- `Tracer::pollCommand`, line 34. -/
def pollCommand : List Char := "resume|\n".toList

/-- The loop over `rp`, lines 170-193, for tracer `id`, which has status OPENED: the tracer
and the connect events after the loop. -/
def connectLoop (id : Nat) : List ConnectAttempt → Tracer → Tracer × List Event
  | [], t => (t, [])
  | a :: rest, t =>
    if t.sock < 0 then
      match a.socket with
      | none => connectLoop id rest { t with sock := -1 }
      | some fd =>
        if a.getflOk = false then connectLoop id rest { t with sock := -1 }
        else if a.setflOk = false then connectLoop id rest { t with sock := -1 }
        else if a.connectOk then
          ({ t with sock := (fd : Int), status := Status.CONNECTED },
            [Event.connect id (fd : Int) true])
        else ({ t with sock := (fd : Int) }, [Event.connect id (fd : Int) false])
    else if a.connectOk then
      ({ t with status := Status.CONNECTED }, [Event.connect id t.sock true])
    else (t, [Event.connect id t.sock false])

/-- A `write` on descriptor `sock` whose outcome on a valid descriptor is `ok`: a negative
descriptor is never valid. -/
def writeSucceeds (sock : Int) (ok : Bool) : Bool :=
  decide (0 ≤ sock) && ok

/-- Body of the loop over `id`, lines 156-213, for one tracer. -/
def pollStep (o : PollOracle) (id : Nat) (s : State) : Option State :=
  match s.tracerList[id]? with
  | none => none
  | some t =>
    match t.status with
    | Status.IDLE => some s
    | Status.OPENED =>
      match o.addrs with
      | none => some s
      | some addrs =>
        some ((s.setTracer id (connectLoop id addrs t).1).emit (connectLoop id addrs t).2)
    | Status.CONNECTED =>
      if writeSucceeds t.sock o.writeOk then
        some (s.emit [Event.write id t.sock pollCommand true])
      else
        some ((s.setTracer id { t with sock := -1, status := Status.OPENED }).emit
          [Event.write id t.sock pollCommand false])
    | Status.CLOSED =>
      match s.threadList[id]? with
      | some Worker.finished =>
        some (((s.setTracer id { status := Status.IDLE, port := 0, sock := -1 }).setThread id
          Worker.absent).emit [Event.join id])
      | _ => none

/-- The loop `for (id = 0; id < tracerList.size(); ++id)` over the listed ids. -/
def pollIds (os : Nat → PollOracle) : List Nat → State → Option State
  | [], s => some s
  | id :: ids, s =>
    match pollStep (os id) id s with
    | none => none
    | some s1 => pollIds os ids s1

/-- One pass of the `while` loop of `Tracer::Poll`, lines 155-214. -/
def Poll (os : Nat → PollOracle) (s : State) : Option State :=
  pollIds os (List.range s.tracerList.length) s

/-! ## Formatted input (`sscanf`) -/

/-- A value stored by a conversion: the bit pattern of a number, or a string. -/
inductive Val
  | num (n : Nat)
  | str (s : List Char)
deriving DecidableEq, Repr

/-- Conversion specifications used by the record formats, lines 39-53. -/
inductive Conv
  | lu
  | llu
  | lx
  | u
  | d
  | notQuote
deriving DecidableEq, Repr

/-- A directive of a `scanf` format: white space, an ordinary character, a conversion
specification, or a conversion the model does not cover. -/
inductive Directive
  | space
  | lit (c : Char)
  | conv (c : Conv)
  | unknown
deriving DecidableEq, Repr

/-- The function `isspace` in the C locale. -/
def isspace (c : Char) : Bool :=
  c.toNat = 32 || (9 ≤ c.toNat && c.toNat ≤ 13)

/-- Split a `scanf` format into its directives. -/
def parseFormat : List Char → List Directive
  | [] => []
  | '%' :: 'l' :: 'l' :: 'u' :: r => Directive.conv Conv.llu :: parseFormat r
  | '%' :: 'l' :: 'u' :: r => Directive.conv Conv.lu :: parseFormat r
  | '%' :: 'l' :: 'x' :: r => Directive.conv Conv.lx :: parseFormat r
  | '%' :: 'u' :: r => Directive.conv Conv.u :: parseFormat r
  | '%' :: 'd' :: r => Directive.conv Conv.d :: parseFormat r
  | '%' :: '[' :: '^' :: '"' :: ']' :: r => Directive.conv Conv.notQuote :: parseFormat r
  | '%' :: _ => [Directive.unknown]
  | c :: r => (if isspace c then Directive.space else Directive.lit c) :: parseFormat r

/-- Value of `c` as a digit in `base` (10 or 16). -/
def digitVal (base : Nat) (c : Char) : Option Nat :=
  if 48 ≤ c.toNat ∧ c.toNat ≤ 57 then some (c.toNat - 48)
  else if base = 16 ∧ 97 ≤ c.toNat ∧ c.toNat ≤ 102 then some (c.toNat - 87)
  else if base = 16 ∧ 65 ≤ c.toNat ∧ c.toNat ≤ 70 then some (c.toNat - 55)
  else none

/-- Read the longest run of digits: accumulated value, number of digits read, rest. -/
def readDigits (base : Nat) : List Char → Nat → Nat → Nat × Nat × List Char
  | [], v, k => (v, k, [])
  | c :: cs, v, k =>
    match digitVal base c with
    | some d => readDigits base cs (v * base + d) (k + 1)
    | none => (v, k, c :: cs)

/-- After the optional sign: an optional `0x` or `0X` when the base is 16 (the `0` counts as
a digit), then digits. -/
def readMagnitude (base : Nat) (inp : List Char) : Nat × Nat × List Char :=
  match inp with
  | z :: x :: r =>
    if base = 16 ∧ z = '0' ∧ (x = 'x' ∨ x = 'X') then readDigits base r 0 1
    else readDigits base inp 0 0
  | _ => readDigits base inp 0 0

/-- The value `strtoul` gives to a sign and a magnitude (64 bit, saturating). -/
def strtoul (neg : Bool) (mag : Nat) : Nat :=
  if 2 ^ 64 ≤ mag then 2 ^ 64 - 1
  else if neg then (2 ^ 64 - mag) % 2 ^ 64
  else mag

/-- The value `strtol` gives to a sign and a magnitude (64 bit, saturating), as a bit
pattern. -/
def strtol (neg : Bool) (mag : Nat) : Nat :=
  if neg then (if 2 ^ 63 ≤ mag then 2 ^ 63 else (2 ^ 64 - mag) % 2 ^ 64)
  else (if 2 ^ 63 ≤ mag then 2 ^ 63 - 1 else mag)

/-- Result of one conversion. -/
inductive Conversion
  | inputFailure
  | matchingFailure
  | ok (v : Val) (rest : List Char)
deriving DecidableEq, Repr

/-- The bit pattern stored for a number read by conversion `k`. -/
def storeNum (k : Conv) (neg : Bool) (mag : Nat) : Nat :=
  match k with
  | Conv.u => strtoul neg mag % 2 ^ 32
  | Conv.d => strtol neg mag % 2 ^ 32
  | _ => strtoul neg mag

/-- A numeric conversion on input from which leading white space has been removed. -/
def convertNum (k : Conv) (base : Nat) (inp : List Char) : Conversion :=
  match inp with
  | [] => Conversion.inputFailure
  | c :: cs =>
    let neg := decide (c = '-')
    let body := if c = '-' ∨ c = '+' then cs else c :: cs
    let r := readMagnitude base body
    if r.2.1 = 0 then Conversion.matchingFailure
    else Conversion.ok (Val.num (storeNum k neg r.1)) r.2.2

/-- One conversion specification applied to the input. -/
def convert (k : Conv) (inp : List Char) : Conversion :=
  match k with
  | Conv.notQuote =>
    match inp with
    | [] => Conversion.inputFailure
    | c :: cs =>
      if c = '"' then Conversion.matchingFailure
      else Conversion.ok (Val.str ((c :: cs).takeWhile (fun x => x ≠ '"')))
        ((c :: cs).dropWhile (fun x => x ≠ '"'))
  | Conv.lx => convertNum k 16 (inp.dropWhile isspace)
  | _ => convertNum k 10 (inp.dropWhile isspace)

/-- What a call of `sscanf` produces: the return value (`-1` is `EOF`) and the values
assigned, in argument order. -/
structure Scanned where
  ret : Int
  vals : List Val
deriving DecidableEq, Repr

/-- Return value on an input failure: `EOF` when no conversion has completed. -/
def onInputFailure (vals : List Val) : Scanned :=
  { ret := if vals.length = 0 then -1 else (vals.length : Int), vals := vals }

/-- Return value on a matching failure or at the end of the format. -/
def onStop (vals : List Val) : Scanned :=
  { ret := (vals.length : Int), vals := vals }

/-- Execute the directives on the input; `vals` are the values assigned so far. -/
def scan : List Directive → List Char → List Val → Scanned
  | [], _, vals => onStop vals
  | Directive.space :: ds, inp, vals => scan ds (inp.dropWhile isspace) vals
  | Directive.lit c :: ds, inp, vals =>
    match inp with
    | [] => onInputFailure vals
    | x :: xs => if x = c then scan ds xs vals else onStop vals
  | Directive.conv k :: ds, inp, vals =>
    match convert k inp with
    | Conversion.inputFailure => onInputFailure vals
    | Conversion.matchingFailure => onStop vals
    | Conversion.ok v rest => scan ds rest (vals ++ [v])
  | Directive.unknown :: _, _, vals => onStop vals

/-- The call `sscanf(buffer, format, ...)`. -/
def sscanf (buffer : List Char) (format : List Char) : Scanned :=
  scan (parseFormat format) buffer []

/-! ## Formatted output (`sprintf`) -/

/-- Decimal digits of a natural number. -/
def decimal (n : Nat) : List Char := Nat.toDigits 10 n

/-- Output of `%d` for an argument with the given 32-bit pattern. -/
def signedDecimal (n : Nat) : List Char :=
  if n % 2 ^ 32 < 2 ^ 31 then decimal (n % 2 ^ 32) else '-' :: decimal (2 ^ 32 - n % 2 ^ 32)

/-- Output of a conversion for the next argument. -/
def printNum (signed : Bool) : Val → List Char
  | Val.num n => if signed then signedDecimal n else decimal n
  | Val.str _ => []

/-- Output of `%s` for the next argument. -/
def printStr : Val → List Char
  | Val.str s => s
  | Val.num _ => []

/-- The text `sprintf(command, format, args...)` stores, for the conversions `%llu`, `%lu`,
`%d` and `%s` of the command formats. -/
def sprintf : List Char → List Val → List Char
  | [], _ => []
  | '%' :: 'l' :: 'l' :: 'u' :: r, a :: args => printNum false a ++ sprintf r args
  | '%' :: 'l' :: 'u' :: r, a :: args => printNum false a ++ sprintf r args
  | '%' :: 'd' :: r, a :: args => printNum true a ++ sprintf r args
  | '%' :: 's' :: r, a :: args => printStr a ++ sprintf r args
  | c :: r, args => c :: sprintf r args

/-! ## Record translation (`Tracer::Send`, lines 221-299) -/

/-- The record kinds, in the order in which `Send` tests them. -/
inductive Kind
  | taskCreated
  | taskDeleted
  | messageSent
  | messageReceived
  | messageSaved
  | semaphoreCreated
  | takeAttempt
  | takeSucceeded
  | takeTimedOut
  | giveSem
  | timerStarted
  | timerCancelled
  | timerTimedOut
  | taskChangedState
  | information
deriving DecidableEq, Repr

/-- The local variables of `Send` that `sscanf` assigns, lines 224-228. -/
inductive Var
  | time
  | nId
  | creatorId
  | pId
  | mId
  | semId
  | tId
  | pName
  | creatorName
  | sigNum
  | msgName
  | semName
  | timerName
  | stateName
  | stillAvailable
  | timeout
  | timeLeft
  | info
deriving DecidableEq, Repr

/-- Values of the local variables of `Send`, lines 224-228 (numbers as bit patterns). -/
structure Locals where
  time : Nat
  nId : Nat
  creatorId : Nat
  pId : Nat
  mId : Nat
  semId : Nat
  tId : Nat
  pName : Nat
  creatorName : Nat
  sigNum : Nat
  msgName : Nat
  semName : Nat
  timerName : Nat
  stateName : Nat
  stillAvailable : Nat
  timeout : Nat
  timeLeft : Nat
  info : List Char
deriving DecidableEq, Repr

/-- Assignment through the pointer argument `&x` (or `info`). -/
def Locals.assign (l : Locals) : Var → Val → Locals
  | Var.time, Val.num n => { l with time := n }
  | Var.nId, Val.num n => { l with nId := n }
  | Var.creatorId, Val.num n => { l with creatorId := n }
  | Var.pId, Val.num n => { l with pId := n }
  | Var.mId, Val.num n => { l with mId := n }
  | Var.semId, Val.num n => { l with semId := n }
  | Var.tId, Val.num n => { l with tId := n }
  | Var.pName, Val.num n => { l with pName := n }
  | Var.creatorName, Val.num n => { l with creatorName := n }
  | Var.sigNum, Val.num n => { l with sigNum := n }
  | Var.msgName, Val.num n => { l with msgName := n }
  | Var.semName, Val.num n => { l with semName := n }
  | Var.timerName, Val.num n => { l with timerName := n }
  | Var.stateName, Val.num n => { l with stateName := n }
  | Var.stillAvailable, Val.num n => { l with stillAvailable := n }
  | Var.timeout, Val.num n => { l with timeout := n }
  | Var.timeLeft, Val.num n => { l with timeLeft := n }
  | Var.info, Val.str s => { l with info := s }
  | _, _ => l

/-- The assignments of one `sscanf` call: the i-th value goes to the i-th argument. -/
def Locals.store (l : Locals) : List Var → List Val → Locals
  | x :: xs, v :: vs => (l.assign x v).store xs vs
  | _, _ => l

/-- Formats for reading values from trace files, lines 39-53. -/
def Kind.readFormat : Kind → List Char
  | Kind.taskCreated => "<taskCreated nId=\"n%lu\" time=\"%llu\" creatorId=\"%lx\" pName=\"p%u\" creatorName=\"p%u\" pId=\"%lx\" />".toList
  | Kind.taskDeleted => "<taskDeleted nId=\"n%lu\" time=\"%llu\" pName=\"p%u\" pId=\"%lx\" />".toList
  | Kind.messageSent => "<messageSent nId=\"n%lu\" time=\"%llu\" pName=\"p%u\" mId=\"%lx\" pId=\"%lx\" sigNum=\"%u\" msgName=\"m%u\" />".toList
  | Kind.messageReceived => "<messageReceived nId=\"n%lu\" time=\"%llu\" pName=\"p%u\" mId=\"%lx\" pId=\"%lx\" sigNum=\"%u\" msgName=\"m%u\" />".toList
  | Kind.messageSaved => "<messageSaved nId=\"n%lu\" time=\"%llu\" pName=\"p%u\" mId=\"%lx\" pId=\"%lx\" sigNum=\"%u\" msgName=\"m%u\" />".toList
  | Kind.semaphoreCreated => "<semaphoreCreated nId=\"n%lu\" time=\"%llu\" semName=\"x%u\" stillAvailable=\"%d\" pId=\"%lx\" />".toList
  | Kind.takeAttempt => "<takeAttempt nId=\"n%lu\" time=\"%llu\" pName=\"p%u\" semName=\"x%u\" timeout=\"%d\" pId=\"%lx\" semId=\"%lx\" />".toList
  | Kind.takeSucceeded => "<takeSucceeded nId=\"n%lu\" time=\"%llu\" pName=\"p%u\" semName=\"x%u\" stillAvailable=\"%d\" pId=\"%lx\" semId=\"%lx\" />".toList
  | Kind.takeTimedOut => "<takeTimedOut nId=\"n%lu\" time=\"%llu\" pName=\"p%u\" semName=\"x%u\" pId=\"%lx\" semId=\"%lx\" />".toList
  | Kind.giveSem => "<giveSem nId=\"n%lu\" time=\"%llu\" pName=\"p%u\" semName=\"x%u\" pId=\"%lx\" semId=\"%lx\" />".toList
  | Kind.timerStarted => "<timerStarted nId=\"n%lu\" time=\"%llu\" pName=\"p%u\" timerName=\"m%u\" pId=\"%lx\" tId=\"%lx\" timeLeft=\"%d\" />".toList
  | Kind.timerCancelled => "<timerCancelled nId=\"n%lu\" time=\"%llu\" pName=\"p%u\" timerName=\"m%u\" pId=\"%lx\" tId=\"%lx\" />".toList
  | Kind.timerTimedOut => "<timerTimedOut nId=\"n%lu\" time=\"%llu\" pName=\"p%u\" timerName=\"m%u\" pId=\"%lx\" tId=\"%lx\" />".toList
  | Kind.taskChangedState => "<taskChangedState nId=\"n%lu\" time=\"%llu\" pName=\"p%u\" pId=\"%lx\" stateName=\"s%u\" />".toList
  | Kind.information => "<information nId=\"n%lu\" time=\"%llu\" pName=\"p%u\" pId=\"%lx\" message=\"%[^\"]\" />".toList

/-- The pointer arguments of the `sscanf` call of each branch, lines 229-285. -/
def Kind.readArgs : Kind → List Var
  | Kind.taskCreated => [Var.nId, Var.time, Var.creatorId, Var.pName, Var.creatorName, Var.pId]
  | Kind.taskDeleted => [Var.nId, Var.time, Var.pName, Var.pId]
  | Kind.messageSent => [Var.nId, Var.time, Var.pName, Var.mId, Var.pId, Var.sigNum, Var.msgName]
  | Kind.messageReceived =>
    [Var.nId, Var.time, Var.pName, Var.mId, Var.pId, Var.sigNum, Var.msgName]
  | Kind.messageSaved => [Var.nId, Var.time, Var.pName, Var.mId, Var.pId, Var.sigNum, Var.msgName]
  | Kind.semaphoreCreated => [Var.nId, Var.time, Var.semName, Var.stillAvailable, Var.pId]
  | Kind.takeAttempt =>
    [Var.nId, Var.time, Var.pName, Var.semName, Var.timeout, Var.pId, Var.semId]
  | Kind.takeSucceeded =>
    [Var.nId, Var.time, Var.pName, Var.semName, Var.stillAvailable, Var.pId, Var.semId]
  | Kind.takeTimedOut => [Var.nId, Var.time, Var.pName, Var.semName, Var.pId, Var.semId]
  | Kind.giveSem => [Var.nId, Var.time, Var.pName, Var.semName, Var.pId, Var.semId]
  | Kind.timerStarted =>
    [Var.nId, Var.time, Var.pName, Var.timerName, Var.pId, Var.tId, Var.timeLeft]
  | Kind.timerCancelled => [Var.nId, Var.time, Var.pName, Var.timerName, Var.pId, Var.tId]
  | Kind.timerTimedOut => [Var.nId, Var.time, Var.pName, Var.timerName, Var.pId, Var.tId]
  | Kind.taskChangedState => [Var.nId, Var.time, Var.pName, Var.pId, Var.stateName]
  | Kind.information => [Var.nId, Var.time, Var.pName, Var.pId, Var.info]

/-- The condition of each branch on the value returned by `sscanf`: `== 6`, `== 4`, `== 7`
for the first five branches (lines 229-245), the bare return value, that is `!= 0`, for the
other ten (lines 249-285). -/
def Kind.accepts : Kind → Int → Bool
  | Kind.taskCreated, r => decide (r = 6)
  | Kind.taskDeleted, r => decide (r = 4)
  | Kind.messageSent, r => decide (r = 7)
  | Kind.messageReceived, r => decide (r = 7)
  | Kind.messageSaved, r => decide (r = 7)
  | _, r => decide (r ≠ 0)

/-- The `sprintf` formats of the branches, lines 230-286. -/
def Kind.writeFormat : Kind → List Char
  | Kind.taskCreated => "taskCreated| -t%llu| -c%lu| -n%s| -N%s| %lu|\n".toList
  | Kind.taskDeleted => "taskDeleted| -t%llu| -n%s| %lu|\n".toList
  | Kind.messageSent => "messageSent| -t%llu| -n%s| -i%lu| %lu| %d| %s|\n".toList
  | Kind.messageReceived => "messageReceived| -t%llu| -n%s| -i%lu| %lu| %d| %s|\n".toList
  | Kind.messageSaved => "messageSaved| -t%llu| -n%s| -i%lu| %lu| %d| %s|\n".toList
  | Kind.semaphoreCreated => "semaphoreCreated| -t%llu| -s%s| -a%d| %lu|\n".toList
  | Kind.takeAttempt => "takeAttempt| -t%llu| -n%s| -s%s| -T%d| %lu| %lu|\n".toList
  | Kind.takeSucceeded => "takeSucceeded| -t%llu| -n%s| -s%s| -a%d| %lu| %lu|\n".toList
  | Kind.takeTimedOut => "takeTimedOut| -t%llu| -n%s| -s%s| %lu| %lu|\n".toList
  | Kind.giveSem => "giveSem| -t%llu| -n%s| -s%s| %lu| %lu|\n".toList
  | Kind.timerStarted => "timerStarted| -t%llu| -n%s| -T%s| %lu| %lu| %d|\n".toList
  | Kind.timerCancelled => "timerCancelled| -t%llu| -n%s| -T%s| %lu| %lu|\n".toList
  | Kind.timerTimedOut => "timerTimedOut| -t%llu| -n%s| -T%s| %lu| %lu|\n".toList
  | Kind.taskChangedState => "taskChangedState| -t%llu| -n%s| %lu| %s|\n".toList
  | Kind.information => "information| -t%llu| -n%s| %lu| %s|\n".toList

/-- What `Send` reads from the simulation engine (`demoddix.hpp`): the start time of the run,
the size of the command buffer and the four name tables. -/
structure Env where
  beginTime : Nat
  bufferSize : Nat
  processList : List (List Char)
  messageList : List (List Char)
  semaphoreList : List (List Char)
  stateList : List (List Char)
deriving DecidableEq, Repr

/-- The expression `(time - Demoddix::beginTime) / 1000000` in 64-bit unsigned arithmetic. -/
def timeArg (env : Env) (time : Nat) : Nat :=
  ((time + 2 ^ 64 - env.beginTime % 2 ^ 64) % 2 ^ 64) / 1000000

/-- The expression `table[i].name.c_str()`; `none` when `i` is out of range. -/
def nameArg (table : List (List Char)) (i : Nat) : Option Val :=
  match table[i]? with
  | some name => some (Val.str name)
  | none => none

/-- The arguments of the `sprintf` call of each branch, lines 231-287; `none` when a name
table is indexed out of range. -/
def Kind.writeArgs (env : Env) (l : Locals) : Kind → Option (List Val)
  | Kind.taskCreated => do
    let p ← nameArg env.processList l.pName
    let c ← nameArg env.processList l.creatorName
    pure [Val.num (timeArg env l.time), Val.num l.creatorId, p, c, Val.num l.pId]
  | Kind.taskDeleted => do
    let p ← nameArg env.processList l.pName
    pure [Val.num (timeArg env l.time), p, Val.num l.pId]
  | Kind.messageSent => do
    let p ← nameArg env.processList l.pName
    let m ← nameArg env.messageList l.msgName
    pure [Val.num (timeArg env l.time), p, Val.num l.mId, Val.num l.pId, Val.num l.sigNum, m]
  | Kind.messageReceived => do
    let p ← nameArg env.processList l.pName
    let m ← nameArg env.messageList l.msgName
    pure [Val.num (timeArg env l.time), p, Val.num l.mId, Val.num l.pId, Val.num l.sigNum, m]
  | Kind.messageSaved => do
    let p ← nameArg env.processList l.pName
    let m ← nameArg env.messageList l.msgName
    pure [Val.num (timeArg env l.time), p, Val.num l.mId, Val.num l.pId, Val.num l.sigNum, m]
  | Kind.semaphoreCreated => do
    let x ← nameArg env.semaphoreList l.semName
    pure [Val.num (timeArg env l.time), x, Val.num l.stillAvailable, Val.num l.pId]
  | Kind.takeAttempt => do
    let p ← nameArg env.processList l.pName
    let x ← nameArg env.semaphoreList l.semName
    pure [Val.num (timeArg env l.time), p, x, Val.num l.timeout, Val.num l.pId, Val.num l.semId]
  | Kind.takeSucceeded => do
    let p ← nameArg env.processList l.pName
    let x ← nameArg env.semaphoreList l.semName
    pure [Val.num (timeArg env l.time), p, x, Val.num l.stillAvailable, Val.num l.pId,
      Val.num l.semId]
  | Kind.takeTimedOut => do
    let p ← nameArg env.processList l.pName
    let x ← nameArg env.semaphoreList l.semName
    pure [Val.num (timeArg env l.time), p, x, Val.num l.pId, Val.num l.semId]
  | Kind.giveSem => do
    let p ← nameArg env.processList l.pName
    let x ← nameArg env.semaphoreList l.semName
    pure [Val.num (timeArg env l.time), p, x, Val.num l.pId, Val.num l.semId]
  | Kind.timerStarted => do
    let p ← nameArg env.processList l.pName
    let m ← nameArg env.messageList l.timerName
    pure [Val.num (timeArg env l.time), p, m, Val.num l.pId, Val.num l.tId, Val.num l.timeLeft]
  | Kind.timerCancelled => do
    let p ← nameArg env.processList l.pName
    let m ← nameArg env.messageList l.timerName
    pure [Val.num (timeArg env l.time), p, m, Val.num l.pId, Val.num l.tId]
  | Kind.timerTimedOut => do
    let p ← nameArg env.processList l.pName
    let m ← nameArg env.messageList l.timerName
    pure [Val.num (timeArg env l.time), p, m, Val.num l.pId, Val.num l.tId]
  | Kind.taskChangedState => do
    let p ← nameArg env.processList l.pName
    let st ← nameArg env.stateList l.stateName
    pure [Val.num (timeArg env l.time), p, Val.num l.pId, st]
  | Kind.information => do
    let p ← nameArg env.processList l.pName
    pure [Val.num (timeArg env l.time), p, Val.num l.pId, Val.str l.info]

/-- The order of the branches of the `if`/`else if` chain, lines 229-285. -/
def Kind.order : List Kind :=
  [Kind.taskCreated, Kind.taskDeleted, Kind.messageSent, Kind.messageReceived,
    Kind.messageSaved, Kind.semaphoreCreated, Kind.takeAttempt, Kind.takeSucceeded,
    Kind.takeTimedOut, Kind.giveSem, Kind.timerStarted, Kind.timerCancelled,
    Kind.timerTimedOut, Kind.taskChangedState, Kind.information]

/-- The `if`/`else if` chain over the listed branches: each `sscanf` call assigns the
variables of the conversions it completed, also when its branch is not taken; the result is
the branch taken and the variables at that point, `none` for the final `else`, line 290. -/
def select : List Kind → List Char → Locals → Option (Kind × Locals)
  | [], _, _ => none
  | k :: ks, buffer, l =>
    if k.accepts (sscanf buffer k.readFormat).ret then
      some (k, l.store k.readArgs (sscanf buffer k.readFormat).vals)
    else select ks buffer (l.store k.readArgs (sscanf buffer k.readFormat).vals)

/-- The text stored in `command` by the branch taken; `none` when a name table is indexed out
of range, when `info` (256 bytes) or `command` (`bufferSize` bytes) cannot hold the text and
its terminating zero. -/
def render (env : Env) (k : Kind) (l : Locals) : Option (List Char) :=
  match k.writeArgs env l with
  | none => none
  | some args =>
    if k = Kind.information ∧ 256 ≤ l.info.length then none
    else if env.bufferSize ≤ (sprintf k.writeFormat args).length then none
    else some (sprintf k.writeFormat args)

/-- The write of `command` to the socket of tracer `nId`, lines 294-298; `ok` is the outcome
of `write` on a valid descriptor. -/
def deliver (ok : Bool) (nId : Nat) (command : List Char) (s : State) : Option State :=
  match s.tracerList[nId]? with
  | none => none
  | some t =>
    if writeSucceeds t.sock ok then some (s.emit [Event.write nId t.sock command true])
    else
      some ((s.setTracer nId { t with sock := -1, status := Status.OPENED }).emit
        [Event.write nId t.sock command false])

/-- `Tracer::Send(buffer)`, lines 221-299. `junk` holds the indeterminate initial values of
the local variables, `ok` the outcome of `write` on a valid descriptor. -/
def Send (env : Env) (junk : Locals) (ok : Bool) (buffer : List Char) (s : State) :
    Option State :=
  match select Kind.order buffer junk with
  | none => some s
  | some (k, l) =>
    match render env k l with
    | none => none
    | some command => deliver ok l.nId command s

/-! ## Reachable states -/

/-- States reachable from the initial state of `n` tracers by `Launch`, the two steps of a
worker thread, one pass of `Poll`, and `Send`, each taken atomically. -/
inductive Reachable (env : Env) (n : Nat) : State → Prop
  | init : Reachable env n (initial n)
  | launch (net : Resolver) (id : Nat) (s s1 : State) :
      Reachable env n s → Launch net id s = some s1 → Reachable env n s1
  | workerStart (id : Nat) (s s1 : State) :
      Reachable env n s → workerStart id s = some s1 → Reachable env n s1
  | workerExit (id : Nat) (s s1 : State) :
      Reachable env n s → workerExit id s = some s1 → Reachable env n s1
  | poll (os : Nat → PollOracle) (s s1 : State) :
      Reachable env n s → Poll os s = some s1 → Reachable env n s1
  | send (junk : Locals) (ok : Bool) (buffer : List Char) (s s1 : State) :
      Reachable env n s → Send env junk ok buffer s = some s1 → Reachable env n s1

/-! ## Specification-side notions -/

/-- The oracle of the port allocation property: address resolution succeeds for `p` and some
resolved address accepts a reusable non-blocking bind. -/
def bindable (net : Resolver) (p : Nat) : Bool :=
  match net p with
  | none => false
  | some addrs =>
    addrs.any (fun a => a.socketOk && a.getflOk && a.setflOk && a.reuseOk && a.bindOk)


/-! ## Concrete scenarios -/

/-- A resolver for which every port resolves to one address that binds. -/
def everyPortFree : Resolver :=
  fun _ =>
    some [{ socketOk := true, getflOk := true, setflOk := true, reuseOk := true, bindOk := true }]

/-- A resolver for which address resolution fails for every port. -/
def noPortFree : Resolver := fun _ => none

/-- One tracer, connected to its viewer on port 65535 through descriptor 4. -/
def oneConnected : State :=
  { tracerList := [{ status := Status.CONNECTED, port := 65535, sock := 4 }]
    threadList := [Worker.running]
    log := [] }

/-! ## Invariants and the shape of a step -/

/-- What one atomic step does to the tracer and thread lists: nothing; a change of one
tracer that keeps its port and leaves it not IDLE, with or without a change of its thread;
the port assignment and thread creation of `Launch`; or the reaping of a CLOSED tracer. -/
inductive Effect (s s1 : State) : Prop
  | same : s1.tracerList = s.tracerList → s1.threadList = s.threadList → Effect s s1
  | tracer (id : Nat) (t u : Tracer) :
      s.tracerList[id]? = some t → s1.tracerList = s.tracerList.set id u →
      s1.threadList = s.threadList → u.status ≠ Status.IDLE → u.port = t.port → Effect s s1
  | worker (id : Nat) (t u : Tracer) (w : Worker) :
      s.tracerList[id]? = some t → s1.tracerList = s.tracerList.set id u →
      s1.threadList = s.threadList.set id w → u.status ≠ Status.IDLE → u.port = t.port →
      Effect s s1
  | launched (id : Nat) (t : Tracer) (p : Nat) :
      s.tracerList[id]? = some t → t.status = Status.IDLE →
      s.threadList[id]? = some Worker.absent → p ≠ 0 → p ∉ usedPorts s.tracerList →
      s1.tracerList = s.tracerList.set id { t with port := p } →
      s1.threadList = s.threadList.set id Worker.spawned → Effect s s1
  | reaped (id : Nat) (t : Tracer) :
      s.tracerList[id]? = some t → s.threadList[id]? = some Worker.finished →
      s1.tracerList = s.tracerList.set id { status := Status.IDLE, port := 0, sock := -1 } →
      s1.threadList = s.threadList.set id Worker.absent → Effect s s1

/-- An IDLE tracer holds no connection, and either has port 0 and no worker thread, or has a
port assigned by `Launch` and a worker thread that has been created and has not started. -/
def IdleInv (s : State) : Prop :=
  ∀ (id : Nat) (t : Tracer), s.tracerList[id]? = some t → t.status = Status.IDLE →
    t.sock < 0 ∧
      ((t.port = 0 ∧ s.threadList[id]? = some Worker.absent) ∨
        (t.port ≠ 0 ∧ s.threadList[id]? = some Worker.spawned))

/-- Two distinct tracers whose ports are non-zero hold different ports. -/
def PortsDistinct (s : State) : Prop :=
  ∀ (i j : Nat) (ti tj : Tracer), i ≠ j → s.tracerList[i]? = some ti → s.tracerList[j]? = some tj →
    ti.port ≠ 0 → tj.port ≠ 0 → ti.port ≠ tj.port

/-- A caller that launches the listed tracers one after the other. -/
def launchEach (net : Resolver) : List Nat → State → Option State
  | [], s => some s
  | id :: ids, s =>
    match Launch net id s with
    | none => none
    | some s1 => launchEach net ids s1

/-- An engine with start time 0, a 1024-byte command buffer and one name in each table. -/
def sampleEnv : Env :=
  { beginTime := 0
    bufferSize := 1024
    processList := ["Alice".toList]
    messageList := ["Ack".toList]
    semaphoreList := ["Lock".toList]
    stateList := ["Ready".toList] }

/-- The state after `Launch(0)` on one idle tracer when port 65535 is free. -/
def oneLaunched : State :=
  { tracerList := [{ status := Status.IDLE, port := 65535, sock := -1 }]
    threadList := [Worker.spawned]
    log := [Event.probe 65535, Event.spawn 0 65535] }

/-- The state after `Launch(0)` and `Launch(1)` on two idle tracers when every port is free. -/
def twoLaunched : State :=
  { tracerList := [{ status := Status.IDLE, port := 65535, sock := -1 },
                   { status := Status.IDLE, port := 65534, sock := -1 }]
    threadList := [Worker.spawned, Worker.spawned]
    log := [Event.probe 65535, Event.spawn 0 65535, Event.probe 65534, Event.spawn 1 65534] }

/-- A record of a sent message: node 0, time 1000000000 ns, process 0, message id 5,
destination process 10 (`a` in hexadecimal), signal number 2, message 0. -/
def sampleMessageSent : List Char :=
  "<messageSent nId=\"n0\" time=\"1000000000\" pName=\"p0\" mId=\"5\" pId=\"a\" sigNum=\"2\" msgName=\"m0\" />".toList

/-- Local variables that all hold zero and an empty `info`. -/
def zeroLocals : Locals :=
  { time := 0, nId := 0, creatorId := 0, pId := 0, mId := 0, semId := 0, tId := 0, pName := 0,
    creatorName := 0, sigNum := 0, msgName := 0, semName := 0, timerName := 0, stateName := 0,
    stillAvailable := 0, timeout := 0, timeLeft := 0, info := [] }

/-- The `messageSent` command of the control protocol, as the specification writes it:
`messageSent| -t<T>| -n<procName>| -i<msgId>| <pId>| <sigNum>| <msgName>|` and a newline,
numbers in decimal. -/
def messageSentCommand (T : Nat) (procName : List Char) (msgId pId sigNum : Nat)
    (msgName : List Char) : List Char :=
  "messageSent| -t".toList ++ decimal T ++ "| -n".toList ++ procName ++ "| -i".toList ++
    decimal msgId ++ "| ".toList ++ decimal pId ++ "| ".toList ++ decimal sigNum ++
    "| ".toList ++ msgName ++ "|\n".toList

/-- The command names of the control protocol. -/
def Kind.name : Kind → List Char
  | Kind.taskCreated => "taskCreated".toList
  | Kind.taskDeleted => "taskDeleted".toList
  | Kind.messageSent => "messageSent".toList
  | Kind.messageReceived => "messageReceived".toList
  | Kind.messageSaved => "messageSaved".toList
  | Kind.semaphoreCreated => "semaphoreCreated".toList
  | Kind.takeAttempt => "takeAttempt".toList
  | Kind.takeSucceeded => "takeSucceeded".toList
  | Kind.takeTimedOut => "takeTimedOut".toList
  | Kind.giveSem => "giveSem".toList
  | Kind.timerStarted => "timerStarted".toList
  | Kind.timerCancelled => "timerCancelled".toList
  | Kind.timerTimedOut => "timerTimedOut".toList
  | Kind.taskChangedState => "taskChangedState".toList
  | Kind.information => "information".toList

/-- The value of the `-t` field of a command: the characters between the `| -t` that follows
the command name and the next `|`; `none` when the command has no such field there. -/
def tField (command : List Char) : Option (List Char) :=
  match command.dropWhile (fun c => c ≠ '|') with
  | '|' :: ' ' :: '-' :: 't' :: r => some (r.takeWhile (fun c => c ≠ '|'))
  | _ => none

/-- The local variables of `Send` after the record `sampleMessageSent` has been read. -/
def sampleLocals : Locals :=
  { zeroLocals with nId := 0, time := 1000000000, pName := 0, mId := 5, pId := 10, sigNum := 2,
                    msgName := 0 }

/-- One IDLE tracer addressed by `sampleMessageSent`, after `Send`: forced to OPENED. -/
def oneForcedOpen : State :=
  { tracerList := [{ status := Status.OPENED, port := 0, sock := -1 }]
    threadList := [Worker.absent]
    log := [Event.write 0 (-1) "messageSent| -t1000| -nAlice| -i5| 10| 2| Ack|\n".toList false] }

/-- A takeTimedOut record cut off after its fifth field: the `semId` attribute is missing. -/
def truncatedTakeTimedOut : List Char :=
  "<takeTimedOut nId=\"n0\" time=\"2000000\" pName=\"p0\" semName=\"x0\" pId=\"1f\"".toList

/-- A finer account of what one atomic step does: nothing; a change of one tracer to OPENED
or CONNECTED with the thread list untouched; the first or the last step of a worker thread;
the port assignment and thread creation of `Launch`; or the reaping of a CLOSED tracer. -/
inductive Moves (s s1 : State) : Prop
  | same : s1.tracerList = s.tracerList → s1.threadList = s.threadList → Moves s s1
  | tracer (id : Nat) (t u : Tracer) :
      s.tracerList[id]? = some t → s1.tracerList = s.tracerList.set id u →
      s1.threadList = s.threadList →
      (u.status = Status.OPENED ∨ u.status = Status.CONNECTED) → Moves s s1
  | started (id : Nat) (t : Tracer) :
      s.tracerList[id]? = some t → s.threadList[id]? = some Worker.spawned →
      s1.tracerList = s.tracerList.set id { t with status := Status.OPENED } →
      s1.threadList = s.threadList.set id Worker.running → Moves s s1
  | exited (id : Nat) (t : Tracer) :
      s.tracerList[id]? = some t → s.threadList[id]? = some Worker.running →
      s1.tracerList = s.tracerList.set id { t with status := Status.CLOSED } →
      s1.threadList = s.threadList.set id Worker.finished → Moves s s1
  | launched (id : Nat) (t : Tracer) (p : Nat) :
      s.tracerList[id]? = some t → t.status = Status.IDLE →
      s.threadList[id]? = some Worker.absent →
      s1.tracerList = s.tracerList.set id { t with port := p } →
      s1.threadList = s.threadList.set id Worker.spawned → Moves s s1
  | reaped (id : Nat) (t : Tracer) :
      s.tracerList[id]? = some t → s.threadList[id]? = some Worker.finished →
      s1.tracerList = s.tracerList.set id { status := Status.IDLE, port := 0, sock := -1 } →
      s1.threadList = s.threadList.set id Worker.absent → Moves s s1

/-- The worker thread of a CLOSED tracer has finished. -/
def ClosedInv (s : State) : Prop :=
  ∀ (id : Nat) (t : Tracer), s.tracerList[id]? = some t → t.status = Status.CLOSED →
    s.threadList[id]? = some Worker.finished

/-- The state after `Launch(0)`, the start and the exit of the worker on one tracer: the
tracer is CLOSED and waits to be reaped. -/
def oneClosed : State :=
  { tracerList := [{ status := Status.CLOSED, port := 65535, sock := -1 }]
    threadList := [Worker.finished]
    log := [Event.probe 65535, Event.spawn 0 65535, Event.exec 0 65535] }

/-- One tracer, OPENED on port 65535, that already holds descriptor 4. -/
def oneOpened : State :=
  { tracerList := [{ status := Status.OPENED, port := 65535, sock := 4 }]
    threadList := [Worker.running]
    log := [] }

/-- A poll oracle: one resolved address, `socket` returns 7, `connect` and `write` succeed. -/
def pollAllOk : PollOracle :=
  { addrs := some [{ socket := some 7, getflOk := true, setflOk := true, connectOk := true }]
    writeOk := true }

/-- The state after `Launch(0)` and the start of the worker on one tracer. -/
def oneRunning : State :=
  { tracerList := [{ status := Status.OPENED, port := 65535, sock := -1 }]
    threadList := [Worker.running]
    log := [Event.probe 65535, Event.spawn 0 65535, Event.exec 0 65535] }

/-- Whether two character sequences differ at some position that both have. -/
def diverge : List Char → List Char → Bool
  | x :: xs, y :: ys => if x = y then diverge xs ys else true
  | _, _ => false

/-- The CLOSED tracer of `oneClosed` after `Send` of `sampleMessageSent`: set to OPENED. -/
def oneReopened : State :=
  { tracerList := [{ status := Status.OPENED, port := 65535, sock := -1 }]
    threadList := [Worker.finished]
    log := [Event.probe 65535, Event.spawn 0 65535, Event.exec 0 65535,
            Event.write 0 (-1) "messageSent| -t1000| -nAlice| -i5| 10| 2| Ack|\n".toList false] }

/-! ## The control protocol, as the specification words it -/

/-- A field of a command: a bare positional value, or a value flagged with a letter. -/
inductive Field
  | bare (value : List Char)
  | flag (letter : Char) (value : List Char)
deriving DecidableEq, Repr

/-- The text of a field: the value, or `-`, the letter and the value. -/
def Field.text : Field → List Char
  | Field.bare v => v
  | Field.flag c v => '-' :: c :: v

/-- A command: the name, each field preceded by `| `, and the terminator `|` newline. -/
def commandText (name : List Char) (fields : List Field) : List Char :=
  name ++ fields.foldr (fun f acc => '|' :: ' ' :: (f.text ++ acc)) ['|', '\n']

/-- The texts that fill the placeholders of the command templates. -/
structure Values where
  us : List Char
  creatorId : List Char
  procName : List Char
  creatorName : List Char
  pId : List Char
  msgId : List Char
  sigNum : List Char
  msgName : List Char
  semName : List Char
  stillAvailable : List Char
  timeout : List Char
  semId : List Char
  timerName : List Char
  tId : List Char
  timeLeft : List Char
  stateName : List Char
  message : List Char
deriving DecidableEq, Repr

/-- The command templates of the control protocol: the fields of each command, in order. -/
def Kind.template (v : Values) : Kind → List Field
  | Kind.taskCreated =>
    [Field.flag 't' v.us, Field.flag 'c' v.creatorId, Field.flag 'n' v.procName,
      Field.flag 'N' v.creatorName, Field.bare v.pId]
  | Kind.taskDeleted => [Field.flag 't' v.us, Field.flag 'n' v.procName, Field.bare v.pId]
  | Kind.messageSent =>
    [Field.flag 't' v.us, Field.flag 'n' v.procName, Field.flag 'i' v.msgId, Field.bare v.pId,
      Field.bare v.sigNum, Field.bare v.msgName]
  | Kind.messageReceived =>
    [Field.flag 't' v.us, Field.flag 'n' v.procName, Field.flag 'i' v.msgId, Field.bare v.pId,
      Field.bare v.sigNum, Field.bare v.msgName]
  | Kind.messageSaved =>
    [Field.flag 't' v.us, Field.flag 'n' v.procName, Field.flag 'i' v.msgId, Field.bare v.pId,
      Field.bare v.sigNum, Field.bare v.msgName]
  | Kind.semaphoreCreated =>
    [Field.flag 't' v.us, Field.flag 's' v.semName, Field.flag 'a' v.stillAvailable,
      Field.bare v.pId]
  | Kind.takeAttempt =>
    [Field.flag 't' v.us, Field.flag 'n' v.procName, Field.flag 's' v.semName,
      Field.flag 'T' v.timeout, Field.bare v.pId, Field.bare v.semId]
  | Kind.takeSucceeded =>
    [Field.flag 't' v.us, Field.flag 'n' v.procName, Field.flag 's' v.semName,
      Field.flag 'a' v.stillAvailable, Field.bare v.pId, Field.bare v.semId]
  | Kind.takeTimedOut =>
    [Field.flag 't' v.us, Field.flag 'n' v.procName, Field.flag 's' v.semName,
      Field.bare v.pId, Field.bare v.semId]
  | Kind.giveSem =>
    [Field.flag 't' v.us, Field.flag 'n' v.procName, Field.flag 's' v.semName,
      Field.bare v.pId, Field.bare v.semId]
  | Kind.timerStarted =>
    [Field.flag 't' v.us, Field.flag 'n' v.procName, Field.flag 'T' v.timerName,
      Field.bare v.pId, Field.bare v.tId, Field.bare v.timeLeft]
  | Kind.timerCancelled =>
    [Field.flag 't' v.us, Field.flag 'n' v.procName, Field.flag 'T' v.timerName,
      Field.bare v.pId, Field.bare v.tId]
  | Kind.timerTimedOut =>
    [Field.flag 't' v.us, Field.flag 'n' v.procName, Field.flag 'T' v.timerName,
      Field.bare v.pId, Field.bare v.tId]
  | Kind.taskChangedState =>
    [Field.flag 't' v.us, Field.flag 'n' v.procName, Field.bare v.pId, Field.bare v.stateName]
  | Kind.information =>
    [Field.flag 't' v.us, Field.flag 'n' v.procName, Field.bare v.pId, Field.bare v.message]

/-- The name a table gives to a handle (empty when the handle is not in the table). -/
def nameOf (table : List (List Char)) (i : Nat) : List Char :=
  (table[i]?).getD []

/-- The texts of the values of a record: the rebased time, the ids and counts as printed
(`%lu` unsigned, `%d` signed), the names the tables give to the handles (timer names come from
the message table), and the text of an information record. -/
def valuesOf (env : Env) (l : Locals) : Values :=
  { us := decimal (timeArg env l.time)
    creatorId := decimal l.creatorId
    procName := nameOf env.processList l.pName
    creatorName := nameOf env.processList l.creatorName
    pId := decimal l.pId
    msgId := decimal l.mId
    sigNum := signedDecimal l.sigNum
    msgName := nameOf env.messageList l.msgName
    semName := nameOf env.semaphoreList l.semName
    stillAvailable := signedDecimal l.stillAvailable
    timeout := signedDecimal l.timeout
    semId := decimal l.semId
    timerName := nameOf env.messageList l.timerName
    tId := decimal l.tId
    timeLeft := signedDecimal l.timeLeft
    stateName := nameOf env.stateList l.stateName
    message := l.info }

/-- Whether the first conversion of a format, if any, is a numeric one. -/
def firstNumeric : List Directive → Bool
  | [] => true
  | Directive.conv c :: _ => decide (c ≠ Conv.notQuote)
  | _ :: ds => firstNumeric ds

/-- A complete takeAttempt record: node 0, time 3000000, process 0, semaphore 0, timeout -1,
process id 31 (`1f`), semaphore id 42 (`2a`). -/
def sampleTakeAttempt : List Char :=
  "<takeAttempt nId=\"n0\" time=\"3000000\" pName=\"p0\" semName=\"x0\" timeout=\"-1\" pId=\"1f\" semId=\"2a\" />".toList

/-- The local variables of `Send` after the record `sampleTakeAttempt` has been read. -/
def sampleTake : Locals :=
  { zeroLocals with nId := 0, time := 3000000, pName := 0, semName := 0, timeout := 4294967295,
                    pId := 31, semId := 42 }

/-- The sample engine with start time 2000000000, after the time of `sampleMessageSent`. -/
def lateEnv : Env := { sampleEnv with beginTime := 2000000000 }

/-- The sample engine with the largest 64-bit start time. -/
def latestEnv : Env := { sampleEnv with beginTime := 18446744073709551615 }

/-- A record of a sent message with time 0. -/
def earlyMessageSent : List Char :=
  "<messageSent nId=\"n0\" time=\"0\" pName=\"p0\" mId=\"5\" pId=\"a\" sigNum=\"2\" msgName=\"m0\" />".toList

/-- The local variables of `Send` after the record `earlyMessageSent` has been read. -/
def earlyLocals : Locals :=
  { zeroLocals with nId := 0, time := 0, pName := 0, mId := 5, pId := 10, sigNum := 2,
                    msgName := 0 }

/-! # Verified properties -/

/-! ## Port allocation: properties -/

theorem tryBind_eq_any (addrs : List BindAttempt) :
    tryBind addrs =
      addrs.any (fun a => a.socketOk && a.getflOk && a.setflOk && a.reuseOk && a.bindOk) := by
  induction addrs with
  | nil => rfl
  | cons a rest ih =>
    rcases a with ⟨a1, a2, a3, a4, a5⟩
    cases a1 <;> cases a2 <;> cases a3 <;> cases a4 <;> cases a5 <;>
      simp [tryBind, ih]

theorem probePort_eq_bindable (net : Resolver) (p : Nat) : probePort net p = bindable net p := by
  unfold probePort bindable
  cases net p with
  | none => rfl
  | some addrs => exact tryBind_eq_any addrs

theorem mem_usedPorts (ts : List Tracer) (p : Nat) :
    p ∈ usedPorts ts ↔ 0 < p ∧ ∃ t ∈ ts, t.port = p := by
  induction ts with
  | nil => simp [usedPorts]
  | cons t ts ih =>
    by_cases h : t.port > 0
    · simp only [usedPorts, h, if_true, List.mem_cons, ih]
      constructor
      · rintro (rfl | ⟨hp, u, hu, rfl⟩)
        · exact ⟨h, t, Or.inl rfl, rfl⟩
        · exact ⟨hp, u, Or.inr hu, rfl⟩
      · rintro ⟨hp, u, hu | hu, rfl⟩
        · subst hu; exact Or.inl rfl
        · exact Or.inr ⟨hp, u, hu, rfl⟩
    · simp only [usedPorts, h, if_false, ih, List.mem_cons]
      constructor
      · rintro ⟨hp, u, hu, rfl⟩
        exact ⟨hp, u, Or.inr hu, rfl⟩
      · rintro ⟨hp, u, hu | hu, rfl⟩
        · subst hu; exact absurd hp h
        · exact ⟨hp, u, hu, rfl⟩

theorem scanPorts_le (net : Resolver) (used : List Nat) (n : Nat) :
    (scanPorts net used n).1 ≤ n := by
  induction n with
  | zero => simp [scanPorts]
  | succ n ih =>
    unfold scanPorts
    split
    · omega
    · split
      · exact Nat.le_refl _
      · simp only []
        omega

theorem scanPorts_found (net : Resolver) (used : List Nat) (n : Nat)
    (h : (scanPorts net used n).1 ≠ 0) :
    (scanPorts net used n).1 ∉ used ∧ probePort net (scanPorts net used n).1 = true ∧
      ∀ q, (scanPorts net used n).1 < q → q ≤ n → q ∈ used ∨ probePort net q = false := by
  induction n with
  | zero => simp [scanPorts] at h
  | succ n ih =>
    unfold scanPorts at h ⊢
    split
    · rename_i hu
      simp only [hu, if_true] at h
      obtain ⟨h1, h2, h3⟩ := ih h
      refine ⟨h1, h2, fun q hq hqn => ?_⟩
      by_cases hq1 : q = n + 1
      · subst hq1; exact Or.inl hu
      · exact h3 q hq (by omega)
    · rename_i hu
      split
      · rename_i hp
        exact ⟨hu, hp, fun q hq hqn => by omega⟩
      · rename_i hp
        simp only [hu, hp, if_false] at h
        obtain ⟨h1, h2, h3⟩ := ih h
        refine ⟨h1, h2, fun q hq hqn => ?_⟩
        by_cases hq1 : q = n + 1
        · subst hq1; exact Or.inr (by simpa using hp)
        · exact h3 q hq (by omega)

theorem scanPorts_none (net : Resolver) (used : List Nat) (n : Nat) :
    (scanPorts net used n).1 = 0 ↔
      ∀ q, 1 ≤ q → q ≤ n → q ∈ used ∨ probePort net q = false := by
  induction n with
  | zero =>
    simp only [scanPorts, true_iff]
    intro q h1 h2
    omega
  | succ n ih =>
    unfold scanPorts
    split
    · rename_i hu
      rw [ih]
      constructor
      · intro h q h1 h2
        by_cases hq1 : q = n + 1
        · subst hq1; exact Or.inl hu
        · exact h q h1 (by omega)
      · intro h q h1 h2
        exact h q h1 (by omega)
    · rename_i hu
      split
      · rename_i hp
        simp only [Nat.add_one_ne_zero, false_iff]
        intro h
        rcases h (n + 1) (by omega) (Nat.le_refl _) with h | h
        · exact hu h
        · rw [hp] at h; exact Bool.noConfusion h
      · rename_i hp
        simp only []
        rw [ih]
        constructor
        · intro h q h1 h2
          by_cases hq1 : q = n + 1
          · subst hq1; exact Or.inr (by simpa using hp)
          · exact h q h1 (by omega)
        · intro h q h1 h2
          exact h q h1 (by omega)

theorem scanPorts_result (net : Resolver) (ts : List Tracer) :
    ((scanPorts net (usedPorts ts) USHRT_MAX).1 ≠ 0 →
        1 ≤ (scanPorts net (usedPorts ts) USHRT_MAX).1 ∧
        (scanPorts net (usedPorts ts) USHRT_MAX).1 ≤ 65535 ∧
        (¬ ∃ t ∈ ts, t.port = (scanPorts net (usedPorts ts) USHRT_MAX).1) ∧
        bindable net (scanPorts net (usedPorts ts) USHRT_MAX).1 = true ∧
        ∀ q, (scanPorts net (usedPorts ts) USHRT_MAX).1 < q → q ≤ 65535 →
          (∃ t ∈ ts, t.port = q) ∨ bindable net q = false) ∧
    ((scanPorts net (usedPorts ts) USHRT_MAX).1 = 0 ↔
        ∀ q, 1 ≤ q → q ≤ 65535 → (∃ t ∈ ts, t.port = q) ∨ bindable net q = false) ∧
    (¬ ∃ t ∈ ts, 0 < t.port ∧ t.port = (scanPorts net (usedPorts ts) USHRT_MAX).1) := by
  have hle := scanPorts_le net (usedPorts ts) USHRT_MAX
  have hnone := scanPorts_none net (usedPorts ts) USHRT_MAX
  have hused : ∀ q, 1 ≤ q → (q ∈ usedPorts ts ↔ ∃ t ∈ ts, t.port = q) := by
    intro q hq
    rw [mem_usedPorts]
    exact ⟨fun h => h.2, fun h => ⟨hq, h⟩⟩
  refine ⟨fun h => ?_, ?_, ?_⟩
  · obtain ⟨h1, h2, h3⟩ := scanPorts_found net (usedPorts ts) USHRT_MAX h
    have hpos : 1 ≤ (scanPorts net (usedPorts ts) USHRT_MAX).1 := Nat.pos_of_ne_zero h
    refine ⟨hpos, hle, ?_, ?_, ?_⟩
    · rw [← hused _ hpos]; exact h1
    · rw [← probePort_eq_bindable]; exact h2
    · intro q hq hq2
      rcases h3 q hq hq2 with h4 | h4
      · exact Or.inl ((hused q (by omega)).1 h4)
      · exact Or.inr (by rw [← probePort_eq_bindable]; exact h4)
  · rw [hnone]
    constructor
    · intro h q h1 h2
      rcases h q h1 h2 with h4 | h4
      · exact Or.inl ((hused q h1).1 h4)
      · exact Or.inr (by rw [← probePort_eq_bindable]; exact h4)
    · intro h q h1 h2
      rcases h q h1 h2 with h4 | h4
      · exact Or.inl ((hused q h1).2 h4)
      · exact Or.inr (by rw [probePort_eq_bindable]; exact h4)
  · rintro ⟨t, ht, hpos, hEq⟩
    have hne : (scanPorts net (usedPorts ts) USHRT_MAX).1 ≠ 0 := by omega
    have h1 := (scanPorts_found net (usedPorts ts) USHRT_MAX hne).1
    exact h1 ((mem_usedPorts ts _).2 ⟨by omega, t, ht, hEq⟩)


/-- C8: the port scan of `Launch` returns the largest port in 1..65535 that no tracer holds
and that is bindable; it returns 0 exactly when no such port exists; and the port returned is
never one held by a tracer. -/
theorem C8_port_scan_result (net : Resolver) (ts : List Tracer) :
    ((scanPorts net (usedPorts ts) USHRT_MAX).1 ≠ 0 →
        1 ≤ (scanPorts net (usedPorts ts) USHRT_MAX).1 ∧
        (scanPorts net (usedPorts ts) USHRT_MAX).1 ≤ 65535 ∧
        (¬ ∃ t ∈ ts, t.port = (scanPorts net (usedPorts ts) USHRT_MAX).1) ∧
        bindable net (scanPorts net (usedPorts ts) USHRT_MAX).1 = true ∧
        ∀ q, (scanPorts net (usedPorts ts) USHRT_MAX).1 < q → q ≤ 65535 →
          (∃ t ∈ ts, t.port = q) ∨ bindable net q = false) ∧
    ((scanPorts net (usedPorts ts) USHRT_MAX).1 = 0 ↔
        ∀ q, 1 ≤ q → q ≤ 65535 → (∃ t ∈ ts, t.port = q) ∨ bindable net q = false) ∧
    (¬ ∃ t ∈ ts, 0 < t.port ∧ t.port = (scanPorts net (usedPorts ts) USHRT_MAX).1) :=
  scanPorts_result net ts

/-! ## `Launch`: properties -/

/-- C6: `Launch` on a tracer whose status is OPENED, CONNECTED or CLOSED returns the state
unchanged: every status, port and connection, the thread list, and the log (no port is
probed, no worker thread is created). -/
theorem C6_launch_busy_is_noop (net : Resolver) (id : Nat) (s : State) (t : Tracer)
    (ht : s.tracerList[id]? = some t)
    (hbusy : t.status = Status.OPENED ∨ t.status = Status.CONNECTED ∨
      t.status = Status.CLOSED) :
    Launch net id s = some s := by
  have hne : t.status ≠ Status.IDLE := by
    rcases hbusy with h | h | h <;> rw [h] <;> decide
  simp [Launch, ht, hne]

theorem C6_launch_busy_is_noop_witness :
    Launch everyPortFree 0 oneConnected = some oneConnected :=
  C6_launch_busy_is_noop everyPortFree 0 oneConnected
    { status := Status.CONNECTED, port := 65535, sock := 4 } rfl (Or.inr (Or.inl rfl))

/-- C7, as stated, fails: after `Launch` on an idle tracer with a free port the tracer holds
the port but its status is still IDLE, not OPENED. -/
theorem C7_counterexample :
    ¬ ∀ (net : Resolver) (id : Nat) (s : State) (t : Tracer),
        s.tracerList[id]? = some t → t.status = Status.IDLE →
        (scanPorts net (usedPorts s.tracerList) USHRT_MAX).1 ≠ 0 →
        ∃ s1 t1, Launch net id s = some s1 ∧ s1.tracerList[id]? = some t1 ∧
          t1.status = Status.OPENED ∧
          t1.port = (scanPorts net (usedPorts s.tracerList) USHRT_MAX).1 := by
  intro h
  obtain ⟨s1, t1, h1, h2, h3, _⟩ :=
    h everyPortFree 0 (initial 1) { status := Status.IDLE, port := 0, sock := -1 } rfl rfl
      (by decide)
  have hL : Launch everyPortFree 0 (initial 1) = some oneLaunched := by decide
  rw [hL] at h1
  simp only [Option.some.injEq] at h1
  subst h1
  have h4 : t1 = { status := Status.IDLE, port := 65535, sock := -1 } := by
    simpa [oneLaunched] using h2.symm
  rw [h4] at h3
  exact absurd h3 (by decide)

/-- C7 (amended): for an IDLE tracer without a worker thread and a scan that finds port `p`,
`Launch` returns with the tracer holding port `p`, status still IDLE, and its worker thread
created; the first step of that worker thread sets the status to OPENED and keeps port `p`. -/
theorem C7_launch_then_worker_opens (net : Resolver) (id : Nat) (s : State) (t : Tracer)
    (ht : s.tracerList[id]? = some t) (hidle : t.status = Status.IDLE)
    (hw : s.threadList[id]? = some Worker.absent)
    (hp : (scanPorts net (usedPorts s.tracerList) USHRT_MAX).1 ≠ 0) :
    ∃ s1, Launch net id s = some s1 ∧
      s1.tracerList[id]? = some { t with port := (scanPorts net (usedPorts s.tracerList) USHRT_MAX).1 } ∧
      s1.threadList[id]? = some Worker.spawned ∧
      ∃ s2, workerStart id s1 = some s2 ∧
        s2.tracerList[id]? =
          some { t with status := Status.OPENED,
                        port := (scanPorts net (usedPorts s.tracerList) USHRT_MAX).1 } := by
  have hlt : id < s.tracerList.length := (List.getElem?_eq_some.1 ht).1
  have hlt2 : id < s.threadList.length := (List.getElem?_eq_some.1 hw).1
  have hL : Launch net id s = some ((((s.emit
      ((scanPorts net (usedPorts s.tracerList) USHRT_MAX).2.map Event.probe)).setTracer id
      { t with port := (scanPorts net (usedPorts s.tracerList) USHRT_MAX).1 }).setThread id
      Worker.spawned).emit
      [Event.spawn id (scanPorts net (usedPorts s.tracerList) USHRT_MAX).1]) := by
    simp [Launch, ht, hidle, State.emit, hw, hp]
  refine ⟨_, hL, ?_, ?_, ?_⟩
  · simp [State.emit, State.setTracer, State.setThread, List.getElem?_set_self hlt]
  · simp [State.emit, State.setTracer, State.setThread, List.getElem?_set_self hlt2]
  · refine ⟨((((((s.emit
      ((scanPorts net (usedPorts s.tracerList) USHRT_MAX).2.map Event.probe)).setTracer id
      { t with port := (scanPorts net (usedPorts s.tracerList) USHRT_MAX).1 }).setThread id
      Worker.spawned).emit
      [Event.spawn id (scanPorts net (usedPorts s.tracerList) USHRT_MAX).1]).setTracer id
      { t with status := Status.OPENED,
               port := (scanPorts net (usedPorts s.tracerList) USHRT_MAX).1 }).setThread id
      Worker.running).emit
      [Event.exec id (scanPorts net (usedPorts s.tracerList) USHRT_MAX).1], ?_, ?_⟩
    · simp [workerStart, State.emit, State.setTracer, State.setThread,
        List.getElem?_set_self hlt, List.getElem?_set_self hlt2]
    · simp [State.emit, State.setTracer, State.setThread, hlt]

theorem C7_launch_then_worker_opens_witness :
    ∃ s1, Launch everyPortFree 0 (initial 1) = some s1 ∧
      s1.tracerList[0]? =
        some { status := Status.IDLE,
               port := (scanPorts everyPortFree (usedPorts (initial 1).tracerList) USHRT_MAX).1,
               sock := -1 } ∧
      s1.threadList[0]? = some Worker.spawned ∧
      ∃ s2, workerStart 0 s1 = some s2 ∧
        s2.tracerList[0]? =
          some { status := Status.OPENED,
                 port := (scanPorts everyPortFree (usedPorts (initial 1).tracerList) USHRT_MAX).1,
                 sock := -1 } :=
  C7_launch_then_worker_opens everyPortFree 0 (initial 1)
    { status := Status.IDLE, port := 0, sock := -1 } rfl rfl rfl (by decide)

/-- C10: when the tracer is IDLE and no port in 1..65535 is both unheld and bindable,
`Launch` returns normally with the tracer list unchanged (the tracer stays IDLE, with port 0
and no connection when it had them, and every other tracer is untouched), the thread list
unchanged and no thread creation recorded. -/
theorem C10_launch_without_free_port (net : Resolver) (id : Nat) (s : State) (t : Tracer)
    (ht : s.tracerList[id]? = some t) (hidle : t.status = Status.IDLE)
    (hnone : ∀ q, 1 ≤ q → q ≤ 65535 →
      (∃ u ∈ s.tracerList, u.port = q) ∨ bindable net q = false) :
    ∃ s1, Launch net id s = some s1 ∧ s1.tracerList = s.tracerList ∧
      s1.threadList = s.threadList ∧
      (∀ i p, Event.spawn i p ∈ s1.log → Event.spawn i p ∈ s.log) ∧
      (t.port = 0 → t.sock < 0 →
        ∃ t1, s1.tracerList[id]? = some t1 ∧ t1.status = Status.IDLE ∧ t1.port = 0 ∧
          t1.sock < 0) := by
  have h0 : (scanPorts net (usedPorts s.tracerList) USHRT_MAX).1 = 0 :=
    ((scanPorts_result net s.tracerList).2.1).2 hnone
  refine ⟨s.emit ((scanPorts net (usedPorts s.tracerList) USHRT_MAX).2.map Event.probe),
    ?_, rfl, rfl, ?_, ?_⟩
  · simp [Launch, ht, hidle, h0]
  · intro i p h
    simp only [State.emit, List.mem_append, List.mem_map] at h
    rcases h with h | ⟨q, _, hq⟩
    · exact h
    · exact Event.noConfusion hq
  · intro hp hs
    exact ⟨t, ht, hidle, hp, hs⟩

theorem C10_launch_without_free_port_witness :
    ∃ s1, Launch noPortFree 0 (initial 2) = some s1 ∧ s1.tracerList = (initial 2).tracerList ∧
      s1.threadList = (initial 2).threadList ∧
      (∀ i p, Event.spawn i p ∈ s1.log → Event.spawn i p ∈ (initial 2).log) ∧
      ((0 : Nat) = 0 → (-1 : Int) < 0 →
        ∃ t1, s1.tracerList[0]? = some t1 ∧ t1.status = Status.IDLE ∧ t1.port = 0 ∧
          t1.sock < 0) :=
  C10_launch_without_free_port noPortFree 0 (initial 2)
    { status := Status.IDLE, port := 0, sock := -1 } rfl rfl (fun _ _ _ => Or.inr rfl)

/-! ## The shape of each step -/

@[simp] theorem emit_tracerList (s : State) (es : List Event) :
    (s.emit es).tracerList = s.tracerList := rfl

@[simp] theorem emit_threadList (s : State) (es : List Event) :
    (s.emit es).threadList = s.threadList := rfl

@[simp] theorem setTracer_tracerList (s : State) (id : Nat) (t : Tracer) :
    (s.setTracer id t).tracerList = s.tracerList.set id t := rfl

@[simp] theorem setTracer_threadList (s : State) (id : Nat) (t : Tracer) :
    (s.setTracer id t).threadList = s.threadList := rfl

@[simp] theorem setThread_tracerList (s : State) (id : Nat) (w : Worker) :
    (s.setThread id w).tracerList = s.tracerList := rfl

@[simp] theorem setThread_threadList (s : State) (id : Nat) (w : Worker) :
    (s.setThread id w).threadList = s.threadList.set id w := rfl

theorem Launch_effect (net : Resolver) (id : Nat) (s s1 : State)
    (h : Launch net id s = some s1) : Effect s s1 := by
  unfold Launch at h
  cases ht : s.tracerList[id]? with
  | none => simp [ht] at h
  | some t =>
    simp only [ht] at h
    by_cases hs : t.status = Status.IDLE
    · rw [if_neg (not_not.mpr hs)] at h
      by_cases hp : (scanPorts net (usedPorts s.tracerList) USHRT_MAX).1 = 0
      · simp only [hp, if_true, Option.some.injEq] at h
        subst h
        exact Effect.same rfl rfl
      · simp only [hp, if_false, emit_threadList] at h
        cases hw : s.threadList[id]? with
        | none => simp [hw] at h
        | some w =>
          cases w <;> simp only [hw, Option.some.injEq, reduceCtorEq] at h
          subst h
          exact Effect.launched id t _ ht hs hw hp
            (scanPorts_found net _ _ hp).1 rfl rfl
    · simp only [ne_eq, hs, not_false_eq_true, if_true, Option.some.injEq] at h
      subst h
      exact Effect.same rfl rfl

theorem workerStart_effect (id : Nat) (s s1 : State) (h : workerStart id s = some s1) :
    Effect s s1 := by
  unfold workerStart at h
  split at h
  · rename_i t hw ht
    simp only [Option.some.injEq] at h
    subst h
    exact Effect.worker id t _ Worker.running ht rfl rfl (by simp) rfl
  · exact Option.noConfusion h

theorem workerExit_effect (id : Nat) (s s1 : State) (h : workerExit id s = some s1) :
    Effect s s1 := by
  unfold workerExit at h
  split at h
  · rename_i t hw ht
    simp only [Option.some.injEq] at h
    subst h
    exact Effect.worker id t _ Worker.finished ht rfl rfl (by simp) rfl
  · exact Option.noConfusion h

theorem connectLoop_port (id : Nat) (addrs : List ConnectAttempt) (t : Tracer) :
    (connectLoop id addrs t).1.port = t.port := by
  induction addrs generalizing t with
  | nil => rfl
  | cons a rest ih =>
    unfold connectLoop
    split
    · split
      · rw [ih]
      · split
        · rw [ih]
        · split
          · rw [ih]
          · split <;> rfl
    · split <;> rfl

theorem connectLoop_status (id : Nat) (addrs : List ConnectAttempt) (t : Tracer) :
    (connectLoop id addrs t).1.status = t.status ∨
      (connectLoop id addrs t).1.status = Status.CONNECTED := by
  induction addrs generalizing t with
  | nil => exact Or.inl rfl
  | cons a rest ih =>
    unfold connectLoop
    split
    · split
      · exact ih _
      · split
        · exact ih _
        · split
          · exact ih _
          · split
            · exact Or.inr rfl
            · exact Or.inl rfl
    · split
      · exact Or.inr rfl
      · exact Or.inl rfl

theorem pollStep_effect (o : PollOracle) (id : Nat) (s s1 : State)
    (h : pollStep o id s = some s1) : Effect s s1 := by
  unfold pollStep at h
  cases ht : s.tracerList[id]? with
  | none => simp [ht] at h
  | some t =>
    simp only [ht] at h
    cases hst : t.status with
    | IDLE =>
      simp only [hst, Option.some.injEq] at h
      subst h
      exact Effect.same rfl rfl
    | OPENED =>
      simp only [hst] at h
      cases ha : o.addrs with
      | none =>
        simp only [ha, Option.some.injEq] at h
        subst h
        exact Effect.same rfl rfl
      | some addrs =>
        simp only [ha, Option.some.injEq] at h
        subst h
        refine Effect.tracer id t (connectLoop id addrs t).1 ht rfl rfl ?_
          (connectLoop_port id addrs t)
        rcases connectLoop_status id addrs t with h1 | h1 <;> rw [h1]
        · rw [hst]; decide
        · decide
    | CONNECTED =>
      simp only [hst] at h
      split at h
      · simp only [Option.some.injEq] at h
        subst h
        exact Effect.same rfl rfl
      · simp only [Option.some.injEq] at h
        subst h
        exact Effect.tracer id t _ ht rfl rfl (by simp) rfl
    | CLOSED =>
      simp only [hst] at h
      cases hw : s.threadList[id]? with
      | none => simp [hw] at h
      | some w =>
        cases w <;> simp only [hw, Option.some.injEq, reduceCtorEq] at h
        subst h
        exact Effect.reaped id t ht hw rfl rfl

theorem deliver_effect (ok : Bool) (nId : Nat) (command : List Char) (s s1 : State)
    (h : deliver ok nId command s = some s1) : Effect s s1 := by
  unfold deliver at h
  cases ht : s.tracerList[nId]? with
  | none => simp [ht] at h
  | some t =>
    simp only [ht] at h
    split at h
    · simp only [Option.some.injEq] at h
      subst h
      exact Effect.same rfl rfl
    · simp only [Option.some.injEq] at h
      subst h
      exact Effect.tracer nId t _ ht rfl rfl (by simp) rfl

theorem Send_effect (env : Env) (junk : Locals) (ok : Bool) (buffer : List Char)
    (s s1 : State) (h : Send env junk ok buffer s = some s1) : Effect s s1 := by
  unfold Send at h
  split at h
  · simp only [Option.some.injEq] at h
    subst h
    exact Effect.same rfl rfl
  · split at h
    · exact Option.noConfusion h
    · exact deliver_effect _ _ _ _ _ h

/-- A property of states that every `Effect` preserves is preserved by a pass of `Poll`. -/
theorem pollIds_preserves (P : State → Prop)
    (hP : ∀ s s1, P s → Effect s s1 → P s1) (os : Nat → PollOracle) (ids : List Nat)
    (s s1 : State) (hs : P s) (h : pollIds os ids s = some s1) : P s1 := by
  induction ids generalizing s with
  | nil =>
    simp only [pollIds, Option.some.injEq] at h
    subst h
    exact hs
  | cons id ids ih =>
    unfold pollIds at h
    cases hstep : pollStep (os id) id s with
    | none => simp [hstep] at h
    | some s2 =>
      simp only [hstep] at h
      exact ih s2 (hP s s2 hs (pollStep_effect _ _ _ _ hstep)) h

/-- A property that holds initially and that every `Effect` preserves holds in every
reachable state. -/
theorem Reachable_induction (env : Env) (n : Nat) (P : State → Prop) (h0 : P (initial n))
    (hP : ∀ s s1, P s → Effect s s1 → P s1) (s : State) (h : Reachable env n s) : P s := by
  induction h with
  | init => exact h0
  | launch net id s s1 _ hL ih => exact hP s s1 ih (Launch_effect net id s s1 hL)
  | workerStart id s s1 _ hL ih => exact hP s s1 ih (workerStart_effect id s s1 hL)
  | workerExit id s s1 _ hL ih => exact hP s s1 ih (workerExit_effect id s s1 hL)
  | poll os s s1 _ hL ih => exact pollIds_preserves P hP os _ s s1 ih hL
  | send junk ok buffer s s1 _ hL ih => exact hP s s1 ih (Send_effect env junk ok buffer s s1 hL)

/-! ## Invariants of the reachable states -/

theorem IdleInv_initial (n : Nat) : IdleInv (initial n) := by
  intro id t ht _
  simp only [initial, List.getElem?_replicate] at ht ⊢
  split at ht
  · rename_i hlt
    simp only [Option.some.injEq] at ht
    subst ht
    simp [hlt]
  · exact Option.noConfusion ht

theorem IdleInv_effect (s s1 : State) (h : IdleInv s) (e : Effect s s1) : IdleInv s1 := by
  intro j tj hj hidle
  cases e with
  | same h1 h2 =>
    rw [h1] at hj
    rw [h2]
    exact h j tj hj hidle
  | tracer id t u ht h1 h2 hu hp =>
    rw [h1, List.getElem?_set] at hj
    rw [h2]
    split at hj
    · split at hj
      · simp only [Option.some.injEq] at hj
        subst hj
        exact absurd hidle hu
      · exact Option.noConfusion hj
    · exact h j tj hj hidle
  | worker id t u w ht h1 h2 hu hp =>
    rw [h1, List.getElem?_set] at hj
    rw [h2]
    split at hj
    · split at hj
      · simp only [Option.some.injEq] at hj
        subst hj
        exact absurd hidle hu
      · exact Option.noConfusion hj
    · rename_i hne
      rw [List.getElem?_set_ne hne]
      exact h j tj hj hidle
  | launched id t p ht hst hw hp hfresh h1 h2 =>
    rw [h1, List.getElem?_set] at hj
    rw [h2]
    split at hj
    · rename_i heq
      subst heq
      split at hj
      · simp only [Option.some.injEq] at hj
        subst hj
        have hlt : id < s.threadList.length := (List.getElem?_eq_some.1 hw).1
        exact ⟨(h id t ht hst).1, Or.inr ⟨hp, List.getElem?_set_self hlt⟩⟩
      · exact Option.noConfusion hj
    · rename_i hne
      rw [List.getElem?_set_ne hne]
      exact h j tj hj hidle
  | reaped id t ht hw h1 h2 =>
    rw [h1, List.getElem?_set] at hj
    rw [h2]
    split at hj
    · rename_i heq
      subst heq
      split at hj
      · simp only [Option.some.injEq] at hj
        subst hj
        have hlt : id < s.threadList.length := (List.getElem?_eq_some.1 hw).1
        exact ⟨by decide, Or.inl ⟨rfl, List.getElem?_set_self hlt⟩⟩
      · exact Option.noConfusion hj
    · rename_i hne
      rw [List.getElem?_set_ne hne]
      exact h j tj hj hidle

theorem PortsDistinct_initial (n : Nat) : PortsDistinct (initial n) := by
  intro i j ti tj _ hi _ hpi _
  simp only [initial, List.getElem?_replicate] at hi
  split at hi
  · simp only [Option.some.injEq] at hi
    subst hi
    exact absurd rfl hpi
  · exact Option.noConfusion hi

theorem PortsDistinct_set (s s1 : State) (id : Nat) (u : Tracer)
    (hl : s1.tracerList = s.tracerList.set id u) (h : PortsDistinct s)
    (hu : u.port ≠ 0 → ∀ (j : Nat) (tj : Tracer), j ≠ id → s.tracerList[j]? = some tj →
      tj.port ≠ 0 → tj.port ≠ u.port) : PortsDistinct s1 := by
  intro i j ti tj hij hi hj hpi hpj
  rw [hl, List.getElem?_set] at hi hj
  split at hi
  · rename_i hid
    subst hid
    split at hi
    · simp only [Option.some.injEq] at hi
      subst hi
      rw [if_neg hij] at hj
      exact fun hEq => hu hpi j tj (Ne.symm hij) hj hpj hEq.symm
    · exact Option.noConfusion hi
  · rename_i hid
    split at hj
    · rename_i hjd
      subst hjd
      split at hj
      · simp only [Option.some.injEq] at hj
        subst hj
        exact hu hpj i ti hij hi hpi
      · exact Option.noConfusion hj
    · exact h i j ti tj hij hi hj hpi hpj

theorem PortsDistinct_keep (s s1 : State) (id : Nat) (t u : Tracer)
    (ht : s.tracerList[id]? = some t) (hl : s1.tracerList = s.tracerList.set id u)
    (hp : u.port = t.port) (h : PortsDistinct s) : PortsDistinct s1 := by
  refine PortsDistinct_set s s1 id u hl h ?_
  intro hu j tj hj htj hpj
  rw [hp] at hu ⊢
  exact h j id tj t hj htj ht hpj hu

theorem PortsDistinct_effect (s s1 : State) (h : PortsDistinct s) (e : Effect s s1) :
    PortsDistinct s1 := by
  cases e with
  | same h1 h2 =>
    intro i j ti tj hij hi hj
    rw [h1] at hi hj
    exact h i j ti tj hij hi hj
  | tracer id t u ht h1 h2 hu hp => exact PortsDistinct_keep s s1 id t u ht h1 hp h
  | worker id t u w ht h1 h2 hu hp => exact PortsDistinct_keep s s1 id t u ht h1 hp h
  | launched id t p ht hst hw hp hfresh h1 h2 =>
    refine PortsDistinct_set s s1 id _ h1 h ?_
    intro _ j tj _ htj hpj hEq
    exact hfresh ((mem_usedPorts s.tracerList p).2
      ⟨Nat.pos_of_ne_zero hp, tj, List.getElem?_mem htj, hEq⟩)
  | reaped id t ht hw h1 h2 =>
    refine PortsDistinct_set s s1 id _ h1 h ?_
    intro hne
    exact absurd rfl hne

theorem launchEach_reachable (env : Env) (n : Nat) (net : Resolver) (ids : List Nat)
    (s s1 : State) (hs : Reachable env n s) (h : launchEach net ids s = some s1) :
    Reachable env n s1 := by
  induction ids generalizing s with
  | nil =>
    simp only [launchEach, Option.some.injEq] at h
    subst h
    exact hs
  | cons id ids ih =>
    unfold launchEach at h
    cases hL : Launch net id s with
    | none => simp [hL] at h
    | some s2 =>
      simp only [hL] at h
      exact ih s2 (Reachable.launch net id s s2 hs hL) h

/-- C1, as stated, fails: after `Launch(0)` on one idle tracer with a free port, and before
the worker thread has run, the tracer is IDLE and holds port 65535. -/
theorem C1_counterexample :
    ¬ ∀ (s : State), Reachable sampleEnv 1 s →
        ∀ (id : Nat) (t : Tracer), s.tracerList[id]? = some t →
          (t.status = Status.IDLE ↔ (t.port = 0 ∧ t.sock < 0)) := by
  intro h
  have hr : Reachable sampleEnv 1 oneLaunched :=
    Reachable.launch everyPortFree 0 (initial 1) oneLaunched Reachable.init (by decide)
  have h1 := (h oneLaunched hr 0 { status := Status.IDLE, port := 65535, sock := -1 } rfl).1 rfl
  exact absurd h1.1 (by decide)

/-- C1 (amended): in every reachable state every IDLE tracer holds no connection
(`sock < 0`), and either has port 0 and no worker thread, or holds the port assigned by
`Launch` while its worker thread is created and has not started. -/
theorem C1_idle_invariant (env : Env) (n : Nat) (s : State) (h : Reachable env n s) :
    ∀ (id : Nat) (t : Tracer), s.tracerList[id]? = some t → t.status = Status.IDLE →
      t.sock < 0 ∧
        ((t.port = 0 ∧ s.threadList[id]? = some Worker.absent) ∨
          (t.port ≠ 0 ∧ s.threadList[id]? = some Worker.spawned)) :=
  Reachable_induction env n IdleInv (IdleInv_initial n) IdleInv_effect s h

theorem C1_idle_invariant_witness :
    Reachable sampleEnv 1 oneLaunched ∧
      ((-1 : Int) < 0 ∧
        (((65535 : Nat) = 0 ∧ oneLaunched.threadList[0]? = some Worker.absent) ∨
          ((65535 : Nat) ≠ 0 ∧ oneLaunched.threadList[0]? = some Worker.spawned))) :=
  ⟨Reachable.launch everyPortFree 0 (initial 1) oneLaunched Reachable.init (by decide),
    C1_idle_invariant sampleEnv 1 oneLaunched
      (Reachable.launch everyPortFree 0 (initial 1) oneLaunched Reachable.init (by decide))
      0 { status := Status.IDLE, port := 65535, sock := -1 } rfl rfl⟩

/-- C9: in every reachable state two distinct tracers with non-zero ports hold different
ports, and this still holds after any further sequence of launches (a launch that finds no
free port leaves the ports as they are). -/
theorem C9_ports_distinct (env : Env) (n : Nat) (s : State) (h : Reachable env n s) :
    (∀ (i j : Nat) (ti tj : Tracer), i ≠ j → s.tracerList[i]? = some ti →
        s.tracerList[j]? = some tj → ti.port ≠ 0 → tj.port ≠ 0 → ti.port ≠ tj.port) ∧
      ∀ (net : Resolver) (ids : List Nat) (s1 : State), launchEach net ids s = some s1 →
        PortsDistinct s1 :=
  ⟨Reachable_induction env n PortsDistinct (PortsDistinct_initial n) PortsDistinct_effect s h,
    fun net ids s1 hl =>
      Reachable_induction env n PortsDistinct (PortsDistinct_initial n) PortsDistinct_effect s1
        (launchEach_reachable env n net ids s s1 h hl)⟩

theorem C9_ports_distinct_witness :
    Reachable sampleEnv 2 twoLaunched ∧ (65535 : Nat) ≠ 65534 ∧ PortsDistinct twoLaunched :=
  ⟨launchEach_reachable sampleEnv 2 everyPortFree [0, 1] (initial 2) twoLaunched
      Reachable.init (by decide),
    (C9_ports_distinct sampleEnv 2 twoLaunched
      (launchEach_reachable sampleEnv 2 everyPortFree [0, 1] (initial 2) twoLaunched
        Reachable.init (by decide))).1 0 1
      { status := Status.IDLE, port := 65535, sock := -1 }
      { status := Status.IDLE, port := 65534, sock := -1 } (by decide) rfl rfl (by decide)
      (by decide),
    (C9_ports_distinct sampleEnv 2 twoLaunched
      (launchEach_reachable sampleEnv 2 everyPortFree [0, 1] (initial 2) twoLaunched
        Reachable.init (by decide))).2 everyPortFree [] twoLaunched rfl⟩

/-! ## `sscanf` and `sprintf`: basic facts -/

theorem sscanf_head_mismatch (fmt : List Char) (a b : Char) (ds : List Directive)
    (h : parseFormat fmt = Directive.lit a :: Directive.lit b :: ds) (x : Char)
    (rest : List Char) (hx : x ≠ b) : sscanf (a :: x :: rest) fmt = ⟨0, []⟩ := by
  simp [sscanf, h, scan, hx, onStop]

theorem head_of_sscanf (fmt : List Char) (a b : Char) (ds : List Directive)
    (h : parseFormat fmt = Directive.lit a :: Directive.lit b :: ds) (buffer : List Char)
    (hr : 1 ≤ (sscanf buffer fmt).ret) : ∃ rest, buffer = a :: b :: rest := by
  unfold sscanf at hr
  rw [h] at hr
  match buffer with
  | [] => simp [scan, onInputFailure] at hr
  | [x] =>
    by_cases hx : x = a
    · simp [scan, onInputFailure, hx] at hr
    · simp [scan, onStop, hx] at hr
  | x :: y :: rest =>
    by_cases hx : x = a
    · by_cases hy : y = b
      · exact ⟨rest, by rw [hx, hy]⟩
      · simp [scan, onStop, hx, hy] at hr
    · simp [scan, onStop, hx] at hr

theorem timeArg_of_le (env : Env) (t : Nat) (h1 : env.beginTime ≤ t) (h2 : t < 2 ^ 64) :
    timeArg env t = (t - env.beginTime) / 1000000 := by
  unfold timeArg
  have h3 : env.beginTime % 2 ^ 64 = env.beginTime := Nat.mod_eq_of_lt (by omega)
  have h4 : (t + 2 ^ 64 - env.beginTime) % 2 ^ 64 = t - env.beginTime := by
    have h5 : t + 2 ^ 64 - env.beginTime = (t - env.beginTime) + 2 ^ 64 := by omega
    rw [h5, Nat.add_mod_right]
    exact Nat.mod_eq_of_lt (by omega)
  rw [h3, h4]

theorem sprintf_messageSent (a1 a3 a4 a5 : Nat) (a2 a6 : List Char) :
    sprintf Kind.messageSent.writeFormat
        [Val.num a1, Val.str a2, Val.num a3, Val.num a4, Val.num a5, Val.str a6] =
      "messageSent| -t".toList ++ (decimal a1 ++ ("| -n".toList ++ (a2 ++ ("| -i".toList ++
        (decimal a3 ++ ("| ".toList ++ (decimal a4 ++ ("| ".toList ++ (signedDecimal a5 ++
        ("| ".toList ++ (a6 ++ "|\n".toList))))))))))) := by
  rfl

/-! ## `Send`: properties -/

theorem parse_taskCreated : ∃ ds, parseFormat Kind.taskCreated.readFormat =
    Directive.lit '<' :: Directive.lit 't' :: ds := ⟨_, rfl⟩

theorem parse_taskDeleted : ∃ ds, parseFormat Kind.taskDeleted.readFormat =
    Directive.lit '<' :: Directive.lit 't' :: ds := ⟨_, rfl⟩

theorem parse_messageSent : ∃ ds, parseFormat Kind.messageSent.readFormat =
    Directive.lit '<' :: Directive.lit 'm' :: ds := ⟨_, rfl⟩

theorem deliver_log (ok : Bool) (n : Nat) (command : List Char) (s : State) (tr : Tracer)
    (hn : s.tracerList[n]? = some tr) :
    ∃ s1, deliver ok n command s = some s1 ∧
      s1.log = s.log ++ [Event.write n tr.sock command (writeSucceeds tr.sock ok)] := by
  unfold deliver
  rw [hn]
  by_cases hw : writeSucceeds tr.sock ok = true
  · exact ⟨s.emit [Event.write n tr.sock command true], by simp only [hw, if_true],
      by simp [State.emit, hw]⟩
  · simp only [Bool.not_eq_true] at hw
    exact ⟨(s.setTracer n { tr with sock := -1, status := Status.OPENED }).emit
      [Event.write n tr.sock command false], by simp [hw], by simp [State.emit, State.setTracer, hw]⟩

/-- C2: a line on which all seven fields of the messageSent format parse, with node id `n`,
time `t` not before the start time, process handle `p` and message handle `m` in their
tables, ids `mId`, `pId` and signal number `sig < 2^31`, makes `Send` issue exactly one write,
on the socket of tracer `n`, of the text
`messageSent| -t<(t - beginTime) / 1000000>| -n<process name>| -i<mId>| <pId>| <sig>| <message name>|`
followed by a newline, with all numbers in decimal. -/
theorem C2_messageSent_translation (env : Env) (junk : Locals) (ok : Bool)
    (buffer : List Char) (s : State) (n t p mId pId sig m : Nat) (pn mn : List Char)
    (tr : Tracer)
    (hscan : sscanf buffer Kind.messageSent.readFormat =
      ⟨7, [Val.num n, Val.num t, Val.num p, Val.num mId, Val.num pId, Val.num sig, Val.num m]⟩)
    (ht : env.beginTime ≤ t) (ht64 : t < 2 ^ 64)
    (hp : env.processList[p]? = some pn) (hm : env.messageList[m]? = some mn)
    (hsig : sig < 2 ^ 31) (hn : s.tracerList[n]? = some tr)
    (hbuf : (messageSentCommand ((t - env.beginTime) / 1000000) pn mId pId sig mn).length <
      env.bufferSize) :
    ∃ s1, Send env junk ok buffer s = some s1 ∧
      s1.log = s.log ++ [Event.write n tr.sock
        (messageSentCommand ((t - env.beginTime) / 1000000) pn mId pId sig mn)
        (writeSucceeds tr.sock ok)] := by
  obtain ⟨ds3, hd3⟩ := parse_messageSent
  obtain ⟨rest, hb⟩ := head_of_sscanf _ _ _ ds3 hd3 buffer (by rw [hscan]; show (1 : Int) ≤ 7; decide)
  subst hb
  obtain ⟨ds1, hd1⟩ := parse_taskCreated
  obtain ⟨ds2, hd2⟩ := parse_taskDeleted
  have h1 := sscanf_head_mismatch _ _ _ ds1 hd1 'm' rest (by decide)
  have h2 := sscanf_head_mismatch _ _ _ ds2 hd2 'm' rest (by decide)
  have hsel : select Kind.order ('<' :: 'm' :: rest) junk =
      some (Kind.messageSent,
        { junk with nId := n, time := t, pName := p, mId := mId, pId := pId, sigNum := sig,
                    msgName := m }) := by
    simp [select, Kind.order, h1, h2, hscan, Kind.accepts, Kind.readArgs, Locals.store,
      Locals.assign]
  have hsd : signedDecimal sig = decimal sig := by
    have h3 : sig % 2 ^ 32 = sig := Nat.mod_eq_of_lt (by omega)
    unfold signedDecimal
    rw [h3, if_pos hsig]
  have hren : render env Kind.messageSent
      { junk with nId := n, time := t, pName := p, mId := mId, pId := pId, sigNum := sig,
                  msgName := m } =
      some (messageSentCommand ((t - env.beginTime) / 1000000) pn mId pId sig mn) := by
    have hargs : Kind.writeArgs env
        { junk with nId := n, time := t, pName := p, mId := mId, pId := pId, sigNum := sig,
                    msgName := m } Kind.messageSent =
        some [Val.num ((t - env.beginTime) / 1000000), Val.str pn, Val.num mId, Val.num pId,
          Val.num sig, Val.str mn] := by
      simp [Kind.writeArgs, nameArg, hp, hm, timeArg_of_le env t ht ht64]
    have htext : sprintf Kind.messageSent.writeFormat
        [Val.num ((t - env.beginTime) / 1000000), Val.str pn, Val.num mId, Val.num pId,
          Val.num sig, Val.str mn] =
        messageSentCommand ((t - env.beginTime) / 1000000) pn mId pId sig mn := by
      rw [sprintf_messageSent, hsd]
      simp [messageSentCommand, List.append_assoc]
    unfold render
    rw [hargs]
    simp only [htext]
    rw [if_neg (by simp), if_neg (by omega)]
  obtain ⟨s1, hs1, hlog⟩ := deliver_log ok n
    (messageSentCommand ((t - env.beginTime) / 1000000) pn mId pId sig mn) s tr hn
  exact ⟨s1, by simp only [Send, hsel, hren]; exact hs1, hlog⟩

theorem C2_messageSent_translation_witness :
    ∃ s1, Send sampleEnv zeroLocals true sampleMessageSent oneConnected = some s1 ∧
      s1.log = oneConnected.log ++
        [Event.write 0 4 "messageSent| -t1000| -nAlice| -i5| 10| 2| Ack|\n".toList true] :=
  C2_messageSent_translation sampleEnv zeroLocals true sampleMessageSent oneConnected
    0 1000000000 0 5 10 2 0 "Alice".toList "Ack".toList
    { status := Status.CONNECTED, port := 65535, sock := 4 }
    (by decide) (by decide) (by decide) rfl rfl (by decide) rfl (by decide)

/-- C3 fails on the code: the ten branches from semaphoreCreated on test the return value of
`sscanf` for being non-zero, so the empty line (return value `EOF`) is taken as a
semaphoreCreated record with every variable left as it was, and a takeTimedOut record cut
off after five of its six fields is translated and written, with the stale `semId`. -/
theorem C3_partial_record_is_selected :
    (∀ junk : Locals, select Kind.order [] junk = some (Kind.semaphoreCreated, junk)) ∧
      (sscanf truncatedTakeTimedOut Kind.takeTimedOut.readFormat).ret = 5 ∧
      Send sampleEnv zeroLocals true truncatedTakeTimedOut oneConnected =
        some { oneConnected with
          log := [Event.write 0 4 "takeTimedOut| -t2| -nAlice| -sLock| 31| 0|\n".toList true] } ∧
      Send sampleEnv zeroLocals true [] oneConnected =
        some { oneConnected with
          log := [Event.write 0 4 "semaphoreCreated| -t0| -sLock| -a0| 0|\n".toList true] } :=
  ⟨fun _ => rfl, by decide, by decide, by decide⟩

/-- C4 fails on the code: `Send` of a complete record addressed to an IDLE tracer (port 0, no
connection) writes to descriptor -1, the write fails, and the tracer is set to OPENED; and a
record whose node id is not below the number of tracers indexes the tracer list out of
range. -/
theorem C4_send_to_idle_opens :
    Send sampleEnv zeroLocals true sampleMessageSent (initial 1) = some oneForcedOpen ∧
      Send sampleEnv zeroLocals false sampleMessageSent (initial 1) = some oneForcedOpen ∧
      Send sampleEnv zeroLocals true sampleMessageSent (initial 0) = none := by
  refine ⟨by decide, by decide, by decide⟩

/-! ## The `-t` field -/

theorem digitChar_ne_bar : ∀ m, m < 10 → Nat.digitChar m ≠ '|' := by decide

theorem toDigitsCore_no_bar (fuel n : Nat) (ds : List Char) (h : ∀ c ∈ ds, c ≠ '|') :
    ∀ c ∈ Nat.toDigitsCore 10 fuel n ds, c ≠ '|' := by
  induction fuel generalizing n ds with
  | zero => simpa [Nat.toDigitsCore] using h
  | succ fuel ih =>
    have hd : ∀ c ∈ Nat.digitChar (n % 10) :: ds, c ≠ '|' := by
      intro c hc
      rcases List.mem_cons.1 hc with hc | hc
      · rw [hc]; exact digitChar_ne_bar _ (Nat.mod_lt _ (by decide))
      · exact h c hc
    unfold Nat.toDigitsCore
    simp only []
    split
    · exact hd
    · exact ih _ _ hd

theorem decimal_no_bar (n : Nat) : ∀ c ∈ decimal n, c ≠ '|' :=
  toDigitsCore_no_bar _ _ [] (by simp)

theorem takeWhile_append_stop (l r : List Char) (h : ∀ c ∈ l, c ≠ '|') :
    (l ++ '|' :: r).takeWhile (fun c => c ≠ '|') = l := by
  induction l with
  | nil => simp [List.takeWhile]
  | cons a l ih =>
    have ha : a ≠ '|' := h a (List.mem_cons_self a l)
    have hl := ih (fun c hc => h c (List.mem_cons_of_mem a hc))
    simp only [ne_eq, decide_not] at hl
    simp [List.takeWhile_cons, ha, hl]

theorem dropWhile_append_stop (l r : List Char) (h : ∀ c ∈ l, c ≠ '|') :
    (l ++ '|' :: r).dropWhile (fun c => c ≠ '|') = '|' :: r := by
  induction l with
  | nil => simp [List.dropWhile]
  | cons a l ih =>
    have ha : a ≠ '|' := h a (List.mem_cons_self a l)
    have hl := ih (fun c hc => h c (List.mem_cons_of_mem a hc))
    simp only [ne_eq, decide_not] at hl
    simp [List.dropWhile_cons, ha, hl]

theorem name_no_bar (k : Kind) : ∀ c ∈ k.name, c ≠ '|' := by
  cases k <;> decide

theorem sprintf_time_prefix (k : Kind) (T : Nat) (args : List Val) :
    ∃ tail, sprintf k.writeFormat (Val.num T :: args) =
      k.name ++ '|' :: ' ' :: '-' :: 't' :: (decimal T ++ '|' :: tail) := by
  cases k <;> exact ⟨_, rfl⟩

theorem writeArgs_head (env : Env) (l : Locals) (k : Kind) (args : List Val)
    (h : k.writeArgs env l = some args) :
    ∃ rest, args = Val.num (timeArg env l.time) :: rest := by
  cases k <;>
    simp only [Kind.writeArgs, Option.bind_eq_bind, Option.bind_eq_some, Option.pure_def,
      Option.some.injEq] at h
  all_goals first
    | (obtain ⟨_, _, _, _, h⟩ := h; exact ⟨_, h.symm⟩)
    | (obtain ⟨_, _, h⟩ := h; exact ⟨_, h.symm⟩)

theorem tField_render (env : Env) (k : Kind) (l : Locals) (text : List Char)
    (h : render env k l = some text) : tField text = some (decimal (timeArg env l.time)) := by
  unfold render at h
  cases ha : k.writeArgs env l with
  | none => simp [ha] at h
  | some args =>
    obtain ⟨rest, hrest⟩ := writeArgs_head env l k args ha
    subst hrest
    obtain ⟨tail, htail⟩ := sprintf_time_prefix k (timeArg env l.time) rest
    simp only [ha] at h
    split at h
    · exact Option.noConfusion h
    · split at h
      · exact Option.noConfusion h
      · simp only [Option.some.injEq] at h
        rw [← h, htail]
        unfold tField
        rw [dropWhile_append_stop _ _ (name_no_bar k)]
        simp only []
        rw [takeWhile_append_stop _ _ (decimal_no_bar _)]

/-- C5, as stated, fails: the sample record has time 1000000000 and start time 0, and the
`-t` field of its command is `1000`, not `1000000`: the divisor is 1000000, not 1000. -/
theorem C5_counterexample :
    ¬ ∀ (env : Env) (junk : Locals) (buffer : List Char) (k : Kind) (l : Locals)
        (text : List Char),
        select Kind.order buffer junk = some (k, l) → render env k l = some text →
        env.beginTime ≤ l.time → l.time < 2 ^ 64 →
        tField text = some (decimal ((l.time - env.beginTime) / 1000)) := by
  intro h
  have h1 := h sampleEnv zeroLocals sampleMessageSent Kind.messageSent sampleLocals
    "messageSent| -t1000| -nAlice| -i5| 10| 2| Ack|\n".toList (by decide) (by decide)
    (by decide) (by decide)
  exact absurd h1 (by decide)

/-- C5 (amended): for every record selected by `Send` whose time `t` is not before the start
time, the `-t` field of the command is the decimal text of `(t - beginTime) / 1000000`,
truncating. -/
theorem C5_time_field (env : Env) (junk : Locals) (buffer : List Char) (k : Kind)
    (l : Locals) (text : List Char)
    (hsel : select Kind.order buffer junk = some (k, l)) (hren : render env k l = some text)
    (ht : env.beginTime ≤ l.time) (h64 : l.time < 2 ^ 64) :
    tField text = some (decimal ((l.time - env.beginTime) / 1000000)) := by
  have _ := hsel
  rw [tField_render env k l text hren, timeArg_of_le env l.time ht h64]

theorem C5_time_field_witness :
    tField "messageSent| -t1000| -nAlice| -i5| 10| 2| Ack|\n".toList =
      some (decimal ((sampleLocals.time - sampleEnv.beginTime) / 1000000)) :=
  C5_time_field sampleEnv zeroLocals sampleMessageSent Kind.messageSent sampleLocals
    "messageSent| -t1000| -nAlice| -i5| 10| 2| Ack|\n".toList (by decide) (by decide)
    (by decide) (by decide)

/-! ## A finer shape of each step -/

theorem Launch_moves (net : Resolver) (id : Nat) (s s1 : State)
    (h : Launch net id s = some s1) : Moves s s1 := by
  unfold Launch at h
  cases ht : s.tracerList[id]? with
  | none => simp [ht] at h
  | some t =>
    simp only [ht] at h
    by_cases hs : t.status = Status.IDLE
    · rw [if_neg (not_not.mpr hs)] at h
      by_cases hp : (scanPorts net (usedPorts s.tracerList) USHRT_MAX).1 = 0
      · simp only [hp, if_true, Option.some.injEq] at h
        subst h
        exact Moves.same rfl rfl
      · simp only [hp, if_false, emit_threadList] at h
        cases hw : s.threadList[id]? with
        | none => simp [hw] at h
        | some w =>
          cases w <;> simp only [hw, Option.some.injEq, reduceCtorEq] at h
          subst h
          exact Moves.launched id t _ ht hs hw rfl rfl
    · simp only [ne_eq, hs, not_false_eq_true, if_true, Option.some.injEq] at h
      subst h
      exact Moves.same rfl rfl

theorem workerStart_moves (id : Nat) (s s1 : State) (h : workerStart id s = some s1) :
    Moves s s1 := by
  unfold workerStart at h
  split at h
  · rename_i t hw ht
    simp only [Option.some.injEq] at h
    subst h
    exact Moves.started id t ht hw rfl rfl
  · exact Option.noConfusion h

theorem workerExit_moves (id : Nat) (s s1 : State) (h : workerExit id s = some s1) :
    Moves s s1 := by
  unfold workerExit at h
  split at h
  · rename_i t hw ht
    simp only [Option.some.injEq] at h
    subst h
    exact Moves.exited id t ht hw rfl rfl
  · exact Option.noConfusion h

theorem pollStep_moves (o : PollOracle) (id : Nat) (s s1 : State)
    (h : pollStep o id s = some s1) : Moves s s1 := by
  unfold pollStep at h
  cases ht : s.tracerList[id]? with
  | none => simp [ht] at h
  | some t =>
    simp only [ht] at h
    cases hst : t.status with
    | IDLE =>
      simp only [hst, Option.some.injEq] at h
      subst h
      exact Moves.same rfl rfl
    | OPENED =>
      simp only [hst] at h
      cases ha : o.addrs with
      | none =>
        simp only [ha, Option.some.injEq] at h
        subst h
        exact Moves.same rfl rfl
      | some addrs =>
        simp only [ha, Option.some.injEq] at h
        subst h
        refine Moves.tracer id t (connectLoop id addrs t).1 ht rfl rfl ?_
        rcases connectLoop_status id addrs t with h1 | h1
        · exact Or.inl (by rw [h1, hst])
        · exact Or.inr h1
    | CONNECTED =>
      simp only [hst] at h
      split at h
      · simp only [Option.some.injEq] at h
        subst h
        exact Moves.same rfl rfl
      · simp only [Option.some.injEq] at h
        subst h
        exact Moves.tracer id t _ ht rfl rfl (Or.inl rfl)
    | CLOSED =>
      simp only [hst] at h
      cases hw : s.threadList[id]? with
      | none => simp [hw] at h
      | some w =>
        cases w <;> simp only [hw, Option.some.injEq, reduceCtorEq] at h
        subst h
        exact Moves.reaped id t ht hw rfl rfl

theorem deliver_moves (ok : Bool) (nId : Nat) (command : List Char) (s s1 : State)
    (h : deliver ok nId command s = some s1) : Moves s s1 := by
  unfold deliver at h
  cases ht : s.tracerList[nId]? with
  | none => simp [ht] at h
  | some t =>
    simp only [ht] at h
    split at h
    · simp only [Option.some.injEq] at h
      subst h
      exact Moves.same rfl rfl
    · simp only [Option.some.injEq] at h
      subst h
      exact Moves.tracer nId t _ ht rfl rfl (Or.inl rfl)

theorem Send_moves (env : Env) (junk : Locals) (ok : Bool) (buffer : List Char)
    (s s1 : State) (h : Send env junk ok buffer s = some s1) : Moves s s1 := by
  unfold Send at h
  split at h
  · simp only [Option.some.injEq] at h
    subst h
    exact Moves.same rfl rfl
  · split at h
    · exact Option.noConfusion h
    · exact deliver_moves _ _ _ _ _ h

/-- A property of states that every `Moves` preserves is preserved along a pass of `Poll`. -/
theorem pollIds_preserves_moves (P : State → Prop)
    (hP : ∀ s s1, P s → Moves s s1 → P s1) (os : Nat → PollOracle) (ids : List Nat)
    (s s1 : State) (hs : P s) (h : pollIds os ids s = some s1) : P s1 := by
  induction ids generalizing s with
  | nil =>
    simp only [pollIds, Option.some.injEq] at h
    subst h
    exact hs
  | cons id ids ih =>
    unfold pollIds at h
    cases hstep : pollStep (os id) id s with
    | none => simp [hstep] at h
    | some s2 =>
      simp only [hstep] at h
      exact ih s2 (hP s s2 hs (pollStep_moves _ _ _ _ hstep)) h

/-- A property that holds initially and that every `Moves` preserves holds in every
reachable state. -/
theorem Reachable_induction_moves (env : Env) (n : Nat) (P : State → Prop)
    (h0 : P (initial n)) (hP : ∀ s s1, P s → Moves s s1 → P s1) (s : State)
    (h : Reachable env n s) : P s := by
  induction h with
  | init => exact h0
  | launch net id s s1 _ hL ih => exact hP s s1 ih (Launch_moves net id s s1 hL)
  | workerStart id s s1 _ hL ih => exact hP s s1 ih (workerStart_moves id s s1 hL)
  | workerExit id s s1 _ hL ih => exact hP s s1 ih (workerExit_moves id s s1 hL)
  | poll os s s1 _ hL ih => exact pollIds_preserves_moves P hP os _ s s1 ih hL
  | send junk ok buffer s s1 _ hL ih => exact hP s s1 ih (Send_moves env junk ok buffer s s1 hL)

theorem ClosedInv_initial (n : Nat) : ClosedInv (initial n) := by
  intro id t ht hc
  simp only [initial, List.getElem?_replicate] at ht
  split at ht
  · simp only [Option.some.injEq] at ht
    subst ht
    exact absurd hc (by decide)
  · exact Option.noConfusion ht

theorem ClosedInv_moves (s s1 : State) (h : ClosedInv s) (e : Moves s s1) : ClosedInv s1 := by
  intro j tj hj hc
  cases e with
  | same h1 h2 =>
    rw [h1] at hj
    rw [h2]
    exact h j tj hj hc
  | tracer id t u ht h1 h2 hu =>
    rw [h1, List.getElem?_set] at hj
    rw [h2]
    split at hj
    · split at hj
      · simp only [Option.some.injEq] at hj
        subst hj
        rcases hu with hu | hu <;> rw [hu] at hc <;> exact absurd hc (by decide)
      · exact Option.noConfusion hj
    · exact h j tj hj hc
  | started id t ht hw h1 h2 =>
    rw [h1, List.getElem?_set] at hj
    rw [h2]
    split at hj
    · split at hj
      · simp only [Option.some.injEq] at hj
        subst hj
        exact Status.noConfusion hc
      · exact Option.noConfusion hj
    · rename_i hne
      rw [List.getElem?_set_ne hne]
      exact h j tj hj hc
  | exited id t ht hw h1 h2 =>
    rw [h1, List.getElem?_set] at hj
    rw [h2]
    split at hj
    · rename_i heq
      subst heq
      exact List.getElem?_set_self (List.getElem?_eq_some.1 hw).1
    · rename_i hne
      rw [List.getElem?_set_ne hne]
      exact h j tj hj hc
  | launched id t p ht hst hw h1 h2 =>
    rw [h1, List.getElem?_set] at hj
    rw [h2]
    split at hj
    · split at hj
      · simp only [Option.some.injEq] at hj
        subst hj
        rw [hst] at hc
        exact absurd hc (by decide)
      · exact Option.noConfusion hj
    · rename_i hne
      rw [List.getElem?_set_ne hne]
      exact h j tj hj hc
  | reaped id t ht hw h1 h2 =>
    rw [h1, List.getElem?_set] at hj
    rw [h2]
    split at hj
    · split at hj
      · simp only [Option.some.injEq] at hj
        subst hj
        exact Status.noConfusion hc
      · exact Option.noConfusion hj
    · rename_i hne
      rw [List.getElem?_set_ne hne]
      exact h j tj hj hc

/-! ## `Poll`: properties -/

theorem oneClosed_reachable : Reachable sampleEnv 1 oneClosed :=
  Reachable.workerExit 0 oneRunning oneClosed
    (Reachable.workerStart 0 oneLaunched oneRunning
      (Reachable.launch everyPortFree 0 (initial 1) oneLaunched Reachable.init (by decide))
      (by decide))
    (by decide)

theorem set_others {α : Type} (l : List α) (id : Nat) (a : α) :
    ∀ j, j ≠ id → (l.set id a)[j]? = l[j]? :=
  fun _ hj => List.getElem?_set_ne (Ne.symm hj)

/-- C12: when a pass of `Poll` reaches a tracer whose status is CLOSED, its step leaves the
tracer IDLE with port 0 and `sock = -1`, the worker thread joined (recorded, and no longer
joinable), and every other tracer and thread unchanged. -/
theorem C12_poll_reaps_closed (env : Env) (n : Nat) (s0 s : State) (os : Nat → PollOracle)
    (ids : List Nat) (o : PollOracle) (id : Nat) (t : Tracer)
    (hr : Reachable env n s0) (hpass : pollIds os ids s0 = some s)
    (ht : s.tracerList[id]? = some t) (hc : t.status = Status.CLOSED) :
    ∃ s1, pollStep o id s = some s1 ∧
      s1.tracerList[id]? = some { status := Status.IDLE, port := 0, sock := -1 } ∧
      s1.threadList[id]? = some Worker.absent ∧
      s1.log = s.log ++ [Event.join id] ∧
      ∀ j, j ≠ id →
        s1.tracerList[j]? = s.tracerList[j]? ∧ s1.threadList[j]? = s.threadList[j]? := by
  have hinv0 : ClosedInv s0 :=
    Reachable_induction_moves env n ClosedInv (ClosedInv_initial n) ClosedInv_moves s0 hr
  have hinv : ClosedInv s :=
    pollIds_preserves_moves ClosedInv ClosedInv_moves os ids s0 s hinv0 hpass
  have hw : s.threadList[id]? = some Worker.finished := hinv id t ht hc
  have hlt : id < s.tracerList.length := (List.getElem?_eq_some.1 ht).1
  have hlt2 : id < s.threadList.length := (List.getElem?_eq_some.1 hw).1
  refine ⟨((s.setTracer id { status := Status.IDLE, port := 0, sock := -1 }).setThread id
    Worker.absent).emit [Event.join id], ?_, ?_, ?_, rfl, ?_⟩
  · simp [pollStep, ht, hc, hw]
  · simp [hlt]
  · simp [hlt2]
  · intro j hj
    exact ⟨set_others _ _ _ j hj, set_others _ _ _ j hj⟩

theorem C12_poll_reaps_closed_witness :
    ∃ s1, pollStep pollAllOk 0 oneClosed = some s1 ∧
      s1.tracerList[0]? = some { status := Status.IDLE, port := 0, sock := -1 } ∧
      s1.threadList[0]? = some Worker.absent ∧
      s1.log = oneClosed.log ++ [Event.join 0] ∧
      ∀ j, j ≠ 0 →
        s1.tracerList[j]? = oneClosed.tracerList[j]? ∧
          s1.threadList[j]? = oneClosed.threadList[j]? :=
  C12_poll_reaps_closed sampleEnv 1 oneClosed oneClosed (fun _ => pollAllOk) [] pollAllOk 0
    { status := Status.CLOSED, port := 65535, sock := -1 } oneClosed_reachable rfl rfl rfl

/-- C13: the step of `Poll` on a CONNECTED tracer issues exactly one write, of the text
`resume|` and a newline, on the tracer's socket; when the write fails the tracer ends
OPENED with `sock = -1` and its port unchanged; when it succeeds the tracer list is unchanged;
every other tracer is unchanged in both cases. -/
theorem C13_poll_keepalive (o : PollOracle) (id : Nat) (s : State) (t : Tracer)
    (ht : s.tracerList[id]? = some t) (hc : t.status = Status.CONNECTED) :
    ∃ s1, pollStep o id s = some s1 ∧
      s1.log = s.log ++
        [Event.write id t.sock "resume|\n".toList (writeSucceeds t.sock o.writeOk)] ∧
      (writeSucceeds t.sock o.writeOk = false →
        s1.tracerList[id]? = some { status := Status.OPENED, port := t.port, sock := -1 }) ∧
      (writeSucceeds t.sock o.writeOk = true → s1.tracerList = s.tracerList) ∧
      s1.threadList = s.threadList ∧
      ∀ j, j ≠ id → s1.tracerList[j]? = s.tracerList[j]? := by
  have hlt : id < s.tracerList.length := (List.getElem?_eq_some.1 ht).1
  by_cases hw : writeSucceeds t.sock o.writeOk = true
  · refine ⟨s.emit [Event.write id t.sock pollCommand true], ?_, ?_, ?_, ?_, rfl, ?_⟩
    · simp [pollStep, ht, hc, hw]
    · simp [State.emit, hw, pollCommand]
    · intro h
      rw [hw] at h
      exact Bool.noConfusion h
    · intro _
      rfl
    · intro j _
      rfl
  · simp only [Bool.not_eq_true] at hw
    refine ⟨(s.setTracer id { t with sock := -1, status := Status.OPENED }).emit
      [Event.write id t.sock pollCommand false], ?_, ?_, ?_, ?_, rfl, ?_⟩
    · simp [pollStep, ht, hc, hw]
    · simp [State.emit, State.setTracer, hw, pollCommand]
    · intro _
      simp [hlt]
    · intro h
      rw [hw] at h
      exact Bool.noConfusion h
    · intro j hj
      exact set_others _ _ _ j hj

theorem C13_poll_keepalive_witness :
    ∃ s1, pollStep pollAllOk 0 oneConnected = some s1 ∧
      s1.log = oneConnected.log ++
        [Event.write 0 4 "resume|\n".toList (writeSucceeds 4 pollAllOk.writeOk)] ∧
      (writeSucceeds 4 pollAllOk.writeOk = false →
        s1.tracerList[0]? = some { status := Status.OPENED, port := 65535, sock := -1 }) ∧
      (writeSucceeds 4 pollAllOk.writeOk = true → s1.tracerList = oneConnected.tracerList) ∧
      s1.threadList = oneConnected.threadList ∧
      ∀ j, j ≠ 0 → s1.tracerList[j]? = oneConnected.tracerList[j]? :=
  C13_poll_keepalive pollAllOk 0 oneConnected
    { status := Status.CONNECTED, port := 65535, sock := 4 } rfl rfl

theorem connectLoop_spec (id : Nat) (addrs : List ConnectAttempt) (t : Tracer)
    (hc : t.status = Status.OPENED) :
    (connectLoop id addrs t).1.port = t.port ∧
      (((connectLoop id addrs t).2 = [] ∧ (connectLoop id addrs t).1.status = Status.OPENED) ∨
        ((connectLoop id addrs t).2 = [Event.connect id (connectLoop id addrs t).1.sock true] ∧
          (connectLoop id addrs t).1.status = Status.CONNECTED) ∨
        ((connectLoop id addrs t).2 = [Event.connect id (connectLoop id addrs t).1.sock false] ∧
          (connectLoop id addrs t).1.status = Status.OPENED)) ∧
      (0 ≤ t.sock → (connectLoop id addrs t).1.sock = t.sock) := by
  induction addrs generalizing t with
  | nil => exact ⟨rfl, Or.inl ⟨rfl, hc⟩, fun _ => rfl⟩
  | cons a rest ih =>
    have hrec := ih { t with sock := -1 } hc
    unfold connectLoop
    split
    · rename_i hneg
      split
      · exact ⟨hrec.1, hrec.2.1, fun h => absurd hneg (not_lt.mpr h)⟩
      · split
        · exact ⟨hrec.1, hrec.2.1, fun h => absurd hneg (not_lt.mpr h)⟩
        · split
          · exact ⟨hrec.1, hrec.2.1, fun h => absurd hneg (not_lt.mpr h)⟩
          · split
            · exact ⟨rfl, Or.inr (Or.inl ⟨rfl, rfl⟩), fun h => absurd hneg (not_lt.mpr h)⟩
            · exact ⟨rfl, Or.inr (Or.inr ⟨rfl, hc⟩), fun h => absurd hneg (not_lt.mpr h)⟩
    · split
      · exact ⟨rfl, Or.inr (Or.inl ⟨rfl, rfl⟩), fun _ => rfl⟩
      · exact ⟨rfl, Or.inr (Or.inr ⟨rfl, hc⟩), fun _ => rfl⟩

/-- C14: the step of `Poll` on an OPENED tracer makes at most one connect attempt, on the
socket the tracer holds afterwards; the tracer ends CONNECTED when that connect succeeds and
OPENED otherwise (also when no attempt is made); its port is unchanged; a socket it held at
the start (`sock >= 0`) is the one used and kept; every other tracer and the thread list are
unchanged. -/
theorem C14_poll_connects_opened (o : PollOracle) (id : Nat) (s : State) (t : Tracer)
    (ht : s.tracerList[id]? = some t) (hc : t.status = Status.OPENED) :
    ∃ s1 u evs, pollStep o id s = some s1 ∧ s1.tracerList[id]? = some u ∧
      s1.log = s.log ++ evs ∧
      ((evs = [] ∧ u.status = Status.OPENED) ∨
        (evs = [Event.connect id u.sock true] ∧ u.status = Status.CONNECTED) ∨
        (evs = [Event.connect id u.sock false] ∧ u.status = Status.OPENED)) ∧
      u.port = t.port ∧
      (0 ≤ t.sock → u.sock = t.sock) ∧
      s1.threadList = s.threadList ∧
      ∀ j, j ≠ id → s1.tracerList[j]? = s.tracerList[j]? := by
  have hlt : id < s.tracerList.length := (List.getElem?_eq_some.1 ht).1
  cases ha : o.addrs with
  | none =>
    refine ⟨s, t, [], ?_, ht, by simp, Or.inl ⟨rfl, hc⟩, rfl, fun _ => rfl, rfl,
      fun _ _ => rfl⟩
    simp [pollStep, ht, hc, ha]
  | some addrs =>
    obtain ⟨h1, h2, h3⟩ := connectLoop_spec id addrs t hc
    refine ⟨(s.setTracer id (connectLoop id addrs t).1).emit (connectLoop id addrs t).2,
      (connectLoop id addrs t).1, (connectLoop id addrs t).2, ?_, ?_, rfl, h2, h1, h3, rfl, ?_⟩
    · simp [pollStep, ht, hc, ha]
    · simp [hlt]
    · intro j hj
      exact set_others _ _ _ j hj

theorem C14_poll_connects_opened_witness :
    ∃ s1 u evs, pollStep pollAllOk 0 oneOpened = some s1 ∧ s1.tracerList[0]? = some u ∧
      s1.log = oneOpened.log ++ evs ∧
      ((evs = [] ∧ u.status = Status.OPENED) ∨
        (evs = [Event.connect 0 u.sock true] ∧ u.status = Status.CONNECTED) ∨
        (evs = [Event.connect 0 u.sock false] ∧ u.status = Status.OPENED)) ∧
      u.port = 65535 ∧
      ((0 : Int) ≤ 4 → u.sock = 4) ∧
      s1.threadList = oneOpened.threadList ∧
      ∀ j, j ≠ 0 → s1.tracerList[j]? = oneOpened.tracerList[j]? :=
  C14_poll_connects_opened pollAllOk 0 oneOpened
    { status := Status.OPENED, port := 65535, sock := 4 } rfl rfl

/-! ## `Send`: delivery -/

/-- C16: for a line that selects a record kind and is addressed to a CONNECTED tracer `n`,
`Send` ends with tracer `n` OPENED, `sock = -1` and the same port when the write fails, and
with tracer `n` unchanged when the write succeeds; every other tracer and the thread list are
unchanged in both cases. -/
theorem C16_send_write_failure (env : Env) (junk : Locals) (ok : Bool) (buffer : List Char)
    (s : State) (k : Kind) (l : Locals) (command : List Char) (t : Tracer)
    (hsel : select Kind.order buffer junk = some (k, l))
    (hren : render env k l = some command)
    (ht : s.tracerList[l.nId]? = some t) (hc : t.status = Status.CONNECTED) :
    ∃ s1, Send env junk ok buffer s = some s1 ∧
      (writeSucceeds t.sock ok = false →
        s1.tracerList[l.nId]? = some { status := Status.OPENED, port := t.port, sock := -1 }) ∧
      (writeSucceeds t.sock ok = true → s1.tracerList[l.nId]? = some t) ∧
      s1.threadList = s.threadList ∧
      ∀ j, j ≠ l.nId → s1.tracerList[j]? = s.tracerList[j]? := by
  have _ := hc
  have hlt : l.nId < s.tracerList.length := (List.getElem?_eq_some.1 ht).1
  have hS : Send env junk ok buffer s = deliver ok l.nId command s := by
    simp only [Send, hsel, hren]
  rw [hS]
  by_cases hw : writeSucceeds t.sock ok = true
  · refine ⟨s.emit [Event.write l.nId t.sock command true], ?_, ?_, ?_, rfl, ?_⟩
    · simp [deliver, ht, hw]
    · intro h
      rw [hw] at h
      exact Bool.noConfusion h
    · intro _
      exact ht
    · intro j _
      rfl
  · simp only [Bool.not_eq_true] at hw
    refine ⟨(s.setTracer l.nId { t with sock := -1, status := Status.OPENED }).emit
      [Event.write l.nId t.sock command false], ?_, ?_, ?_, rfl, ?_⟩
    · simp [deliver, ht, hw]
    · intro _
      simp [hlt]
    · intro h
      rw [hw] at h
      exact Bool.noConfusion h
    · intro j hj
      exact set_others _ _ _ j hj

theorem C16_send_write_failure_witness :
    ∃ s1, Send sampleEnv zeroLocals false sampleMessageSent oneConnected = some s1 ∧
      (writeSucceeds 4 false = false →
        s1.tracerList[sampleLocals.nId]? =
          some { status := Status.OPENED, port := 65535, sock := -1 }) ∧
      (writeSucceeds 4 false = true →
        s1.tracerList[sampleLocals.nId]? =
          some { status := Status.CONNECTED, port := 65535, sock := 4 }) ∧
      s1.threadList = oneConnected.threadList ∧
      ∀ j, j ≠ sampleLocals.nId → s1.tracerList[j]? = oneConnected.tracerList[j]? :=
  C16_send_write_failure sampleEnv zeroLocals false sampleMessageSent oneConnected
    Kind.messageSent sampleLocals "messageSent| -t1000| -nAlice| -i5| 10| 2| Ack|\n".toList
    { status := Status.CONNECTED, port := 65535, sock := 4 } (by decide) (by decide) rfl rfl

/-- C15 fails on the code: a tracer that is CLOSED in a reachable state (launched, worker
started and exited, not yet reaped) is moved to OPENED by `Send`, whatever the write oracle
answers, because the write on descriptor -1 fails; and an IDLE tracer that was never
launched is moved to OPENED by `Send` in the same way. -/
theorem C15_send_breaks_state_table :
    Reachable sampleEnv 1 oneClosed ∧
      Send sampleEnv zeroLocals true sampleMessageSent oneClosed = some oneReopened ∧
      Send sampleEnv zeroLocals false sampleMessageSent oneClosed = some oneReopened ∧
      Send sampleEnv zeroLocals true sampleMessageSent (initial 1) = some oneForcedOpen :=
  ⟨oneClosed_reachable, by decide, by decide, by decide⟩

/-! ## The formats are mutually exclusive -/

theorem parse_tag (k : Kind) :
    ∃ ds, parseFormat k.readFormat = ('<' :: k.name).map Directive.lit ++ ds := by
  cases k <;> exact ⟨_, rfl⟩

theorem scan_lits_prefix (pre : List Char) (ds : List Directive) (buffer : List Char)
    (h : 1 ≤ (scan (pre.map Directive.lit ++ ds) buffer []).ret) :
    ∃ rest, buffer = pre ++ rest := by
  induction pre generalizing buffer with
  | nil => exact ⟨buffer, rfl⟩
  | cons c p ih =>
    cases buffer with
    | nil => simp [scan, onInputFailure] at h
    | cons x xs =>
      by_cases hx : x = c
      · subst hx
        simp only [List.map_cons, List.cons_append, scan, if_true] at h
        obtain ⟨rest, hrest⟩ := ih xs h
        exact ⟨rest, by rw [hrest]; rfl⟩
      · simp [scan, onStop, hx] at h

theorem scan_diverge (pre1 pre : List Char) (ds : List Directive) (rest : List Char)
    (h : diverge pre1 pre = true) :
    scan (pre1.map Directive.lit ++ ds) (pre ++ rest) [] = ⟨0, []⟩ := by
  induction pre1 generalizing pre with
  | nil => simp [diverge] at h
  | cons y ys ih =>
    cases pre with
    | nil => simp [diverge] at h
    | cons x xs =>
      by_cases hxy : y = x
      · subst hxy
        simp only [diverge, if_true] at h
        simp only [List.map_cons, List.cons_append, scan, if_true]
        exact ih xs h
      · have hyx : ¬ x = y := fun e => hxy e.symm
        simp [scan, onStop, hyx]

theorem names_diverge (k k1 : Kind) (h : k1 ≠ k) :
    diverge ('<' :: k1.name) ('<' :: k.name) = true := by
  cases k <;> cases k1 <;> first | exact absurd rfl h | decide

theorem sscanf_other_kind (buffer : List Char) (k k1 : Kind) (hne : k1 ≠ k)
    (h : 1 ≤ (sscanf buffer k.readFormat).ret) : sscanf buffer k1.readFormat = ⟨0, []⟩ := by
  obtain ⟨ds, hds⟩ := parse_tag k
  obtain ⟨ds1, hds1⟩ := parse_tag k1
  unfold sscanf at h ⊢
  rw [hds] at h
  obtain ⟨rest, hrest⟩ := scan_lits_prefix _ ds buffer h
  rw [hds1, hrest]
  exact scan_diverge _ _ ds1 rest (names_diverge k k1 hne)

theorem accepts_zero (k : Kind) : k.accepts 0 = false := by
  cases k <;> rfl

theorem store_nil (l : Locals) (xs : List Var) : l.store xs [] = l := by
  cases xs <;> rfl

theorem select_all_zero (buffer : List Char) (ks : List Kind) (l : Locals)
    (h : ∀ k1 ∈ ks, sscanf buffer k1.readFormat = ⟨0, []⟩) : select ks buffer l = none := by
  induction ks generalizing l with
  | nil => rfl
  | cons k0 rest ih =>
    have h0 := h k0 (List.mem_cons_self k0 rest)
    unfold select
    rw [h0]
    simp only [accepts_zero, store_nil, Bool.false_eq_true, if_false]
    exact ih l (fun k1 hk1 => h k1 (List.mem_cons_of_mem k0 hk1))

theorem select_unique (buffer : List Char) (k : Kind) (ks : List Kind) (l : Locals)
    (hz : ∀ k1, k1 ≠ k → sscanf buffer k1.readFormat = ⟨0, []⟩)
    (hnd : ks.Nodup) (hk : k ∈ ks) :
    select ks buffer l =
      if k.accepts (sscanf buffer k.readFormat).ret then
        some (k, l.store k.readArgs (sscanf buffer k.readFormat).vals)
      else none := by
  induction ks generalizing l with
  | nil => exact absurd hk (List.not_mem_nil k)
  | cons k0 rest ih =>
    have hnd2 := List.nodup_cons.1 hnd
    by_cases h0 : k0 = k
    · subst h0
      unfold select
      split
      · rfl
      · exact select_all_zero buffer rest _
          (fun k1 hk1 => hz k1 (fun e => hnd2.1 (e ▸ hk1)))
    · have hzero := hz k0 h0
      have hk2 : k ∈ rest := by
        rcases List.mem_cons.1 hk with e | e
        · exact absurd e.symm h0
        · exact e
      unfold select
      rw [hzero]
      simp only [accepts_zero, store_nil, Bool.false_eq_true, if_false]
      exact ih l hnd2.2 hk2

theorem order_nodup : Kind.order.Nodup := by decide

theorem mem_order (k : Kind) : k ∈ Kind.order := by
  cases k <;> decide

/-- C17: when some format parses at least one field of a line, no other format parses any
field of it (each of them returns 0 with nothing assigned), and what `Send` selects, the kind
and the values of the variables, is the same for every order in which the fifteen formats
are tested. -/
theorem C17_formats_exclusive (buffer : List Char) (k : Kind)
    (h : 1 ≤ (sscanf buffer k.readFormat).ret) :
    (∀ k1, 1 ≤ (sscanf buffer k1.readFormat).ret → k1 = k) ∧
      (∀ k1, k1 ≠ k → sscanf buffer k1.readFormat = ⟨0, []⟩) ∧
      ∀ (ks : List Kind) (junk : Locals), ks.Perm Kind.order →
        select ks buffer junk = select Kind.order buffer junk := by
  have hz : ∀ k1, k1 ≠ k → sscanf buffer k1.readFormat = ⟨0, []⟩ :=
    fun k1 hne => sscanf_other_kind buffer k k1 hne h
  refine ⟨?_, hz, ?_⟩
  · intro k1 h1
    by_contra hne
    rw [hz k1 hne] at h1
    exact absurd h1 (by decide)
  · intro ks junk hperm
    rw [select_unique buffer k ks junk hz (hperm.nodup_iff.2 order_nodup)
        (hperm.mem_iff.2 (mem_order k)),
      select_unique buffer k Kind.order junk hz order_nodup (mem_order k)]

theorem C17_formats_exclusive_witness :
    (∀ k1, 1 ≤ (sscanf sampleMessageSent k1.readFormat).ret → k1 = Kind.messageSent) ∧
      (∀ k1, k1 ≠ Kind.messageSent → sscanf sampleMessageSent k1.readFormat = ⟨0, []⟩) ∧
      ∀ (ks : List Kind) (junk : Locals), ks.Perm Kind.order →
        select ks sampleMessageSent junk = select Kind.order sampleMessageSent junk :=
  C17_formats_exclusive sampleMessageSent Kind.messageSent (by decide)

/-! ## Command templates -/

theorem nameArg_some (table : List (List Char)) (i : Nat) (v : Val)
    (h : nameArg table i = some v) : v = Val.str (nameOf table i) := by
  unfold nameArg at h
  unfold nameOf
  cases hi : table[i]? with
  | none => simp [hi] at h
  | some name =>
    simp only [hi, Option.some.injEq] at h
    rw [← h]
    rfl

theorem sprintf_template (env : Env) (l : Locals) (k : Kind) (args : List Val)
    (h : k.writeArgs env l = some args) :
    sprintf k.writeFormat args = commandText k.name (k.template (valuesOf env l)) := by
  cases k <;>
    simp only [Kind.writeArgs, Option.bind_eq_bind, Option.bind_eq_some, Option.pure_def,
      Option.some.injEq] at h
  all_goals first
    | (obtain ⟨a, ha, b, hb, rfl⟩ := h
       obtain rfl := nameArg_some _ _ _ ha
       obtain rfl := nameArg_some _ _ _ hb
       rfl)
    | (obtain ⟨a, ha, rfl⟩ := h
       obtain rfl := nameArg_some _ _ _ ha
       rfl)

theorem render_template (env : Env) (k : Kind) (l : Locals) (text : List Char)
    (h : render env k l = some text) :
    text = commandText k.name (k.template (valuesOf env l)) := by
  unfold render at h
  cases ha : k.writeArgs env l with
  | none => simp [ha] at h
  | some args =>
    simp only [ha] at h
    split at h
    · exact Option.noConfusion h
    · split at h
      · exact Option.noConfusion h
      · simp only [Option.some.injEq] at h
        rw [← h]
        exact sprintf_template env l k args ha

theorem scan_ret_le (ds : List Directive) (inp : List Char) (acc : List Val) :
    (scan ds inp acc).ret ≤ ((scan ds inp acc).vals.length : Int) := by
  induction ds generalizing inp acc with
  | nil => simp [scan, onStop]
  | cons d ds ih =>
    cases d with
    | space => simp only [scan]; exact ih _ _
    | lit c =>
      cases inp with
      | nil =>
        simp only [scan, onInputFailure]
        split <;> omega
      | cons x xs =>
        simp only [scan]
        split
        · exact ih _ _
        · simp [onStop]
    | conv c =>
      simp only [scan]
      split
      · simp only [onInputFailure]
        split <;> omega
      · simp [onStop]
      · exact ih _ _
    | unknown => simp [scan, onStop]

theorem scan_vals_prefix (ds : List Directive) (inp : List Char) (acc : List Val) :
    ∃ more, (scan ds inp acc).vals = acc ++ more := by
  induction ds generalizing inp acc with
  | nil => exact ⟨[], by simp [scan, onStop]⟩
  | cons d ds ih =>
    cases d with
    | space => simp only [scan]; exact ih _ _
    | lit c =>
      cases inp with
      | nil => exact ⟨[], by simp [scan, onInputFailure]⟩
      | cons x xs =>
        simp only [scan]
        split
        · exact ih _ _
        · exact ⟨[], by simp [onStop]⟩
    | conv c =>
      simp only [scan]
      split
      · exact ⟨[], by simp [onInputFailure]⟩
      · exact ⟨[], by simp [onStop]⟩
      · rename_i v rest _
        obtain ⟨more, hm⟩ := ih rest (acc ++ [v])
        exact ⟨v :: more, by rw [hm]; simp⟩
    | unknown => exact ⟨[], by simp [scan, onStop]⟩

theorem convertNum_num (c : Conv) (base : Nat) (inp : List Char) (v : Val) (rest : List Char)
    (h : convertNum c base inp = Conversion.ok v rest) : ∃ n, v = Val.num n := by
  unfold convertNum at h
  cases inp with
  | nil => simp at h
  | cons x xs =>
    simp only [] at h
    split at h <;> split at h <;>
      first
        | exact Conversion.noConfusion h
        | (simp only [Conversion.ok.injEq] at h; exact ⟨_, h.1.symm⟩)

theorem convert_num (c : Conv) (hc : c ≠ Conv.notQuote) (inp : List Char) (v : Val)
    (rest : List Char) (h : convert c inp = Conversion.ok v rest) : ∃ n, v = Val.num n := by
  cases c with
  | notQuote => exact absurd rfl hc
  | lu => exact convertNum_num _ _ _ v rest h
  | llu => exact convertNum_num _ _ _ v rest h
  | lx => exact convertNum_num _ _ _ v rest h
  | u => exact convertNum_num _ _ _ v rest h
  | d => exact convertNum_num _ _ _ v rest h

theorem scan_head_num (ds : List Directive) (inp : List Char) (hf : firstNumeric ds = true) :
    (scan ds inp []).vals = [] ∨ ∃ n rest, (scan ds inp []).vals = Val.num n :: rest := by
  induction ds generalizing inp with
  | nil => exact Or.inl (by simp [scan, onStop])
  | cons d ds ih =>
    cases d with
    | space => simp only [scan]; exact ih _ hf
    | lit c =>
      cases inp with
      | nil => exact Or.inl (by simp [scan, onInputFailure])
      | cons x xs =>
        simp only [scan]
        split
        · exact ih _ hf
        · exact Or.inl (by simp [onStop])
    | conv c =>
      have hc : c ≠ Conv.notQuote := by simpa [firstNumeric] using hf
      simp only [scan]
      split
      · exact Or.inl (by simp [onInputFailure])
      · exact Or.inl (by simp [onStop])
      · rename_i v rest hcv
        obtain ⟨n, hn⟩ := convert_num c hc inp v rest hcv
        obtain ⟨more, hm⟩ := scan_vals_prefix ds rest ([] ++ [v])
        exact Or.inr ⟨n, more, by rw [hm, hn]; simp⟩
    | unknown => exact Or.inl (by simp [scan, onStop])

theorem format_firstNumeric (k : Kind) : firstNumeric (parseFormat k.readFormat) = true := by
  cases k <;> decide

theorem assign_nId (l : Locals) (x : Var) (v : Val) (hx : x ≠ Var.nId) :
    (l.assign x v).nId = l.nId := by
  cases x <;> cases v <;> first | rfl | exact absurd rfl hx

theorem store_nId (xs : List Var) (vs : List Val) (l : Locals) (h : Var.nId ∉ xs) :
    (l.store xs vs).nId = l.nId := by
  induction xs generalizing vs l with
  | nil => cases vs <;> rfl
  | cons x xs ih =>
    cases vs with
    | nil => rfl
    | cons v vs =>
      have hx : x ≠ Var.nId := fun e => h (e ▸ List.mem_cons_self x xs)
      have hxs : Var.nId ∉ xs := fun e => h (List.mem_cons_of_mem x e)
      simp only [Locals.store]
      rw [ih vs _ hxs, assign_nId l x v hx]

theorem readArgs_nId (k : Kind) : ∃ xs, k.readArgs = Var.nId :: xs ∧ Var.nId ∉ xs := by
  cases k <;> exact ⟨_, rfl, by decide⟩

theorem accepts_full (k : Kind) : k.accepts (k.readArgs.length : Int) = true := by
  cases k <;> rfl

theorem full_ge_one (k : Kind) : (1 : Int) ≤ (k.readArgs.length : Int) := by
  cases k <;> decide

/-- C11: for every record kind and every line on which all fields of the kind's format
parse, with the translation defined (name handles in their tables, the text within the
buffers, the node id within the tracer list), the text `Send` produces is the kind's command
template: the command name, the listed fields in order, each bare or flagged with its letter
and preceded by `| `, then `|` and a newline; `Send` issues exactly one write, of that text,
on the socket of the tracer whose index is the node id, the first value read from the
record. -/
theorem C11_command_templates (env : Env) (junk : Locals) (ok : Bool) (buffer : List Char)
    (s : State) (k : Kind) (l : Locals) (text : List Char) (tr : Tracer)
    (hfull : (sscanf buffer k.readFormat).ret = (k.readArgs.length : Int))
    (hl : l = junk.store k.readArgs (sscanf buffer k.readFormat).vals)
    (hren : render env k l = some text)
    (hn : s.tracerList[l.nId]? = some tr) :
    text = commandText k.name (k.template (valuesOf env l)) ∧
      (∃ rest, (sscanf buffer k.readFormat).vals = Val.num l.nId :: rest) ∧
      ∃ s1, Send env junk ok buffer s = some s1 ∧
        s1.log = s.log ++ [Event.write l.nId tr.sock
          (commandText k.name (k.template (valuesOf env l))) (writeSucceeds tr.sock ok)] := by
  have h1 : 1 ≤ (sscanf buffer k.readFormat).ret := by
    rw [hfull]; exact full_ge_one k
  have hz : ∀ k1, k1 ≠ k → sscanf buffer k1.readFormat = ⟨0, []⟩ :=
    fun k1 hne => sscanf_other_kind buffer k k1 hne h1
  have hsel : select Kind.order buffer junk = some (k, l) := by
    rw [select_unique buffer k Kind.order junk hz order_nodup (mem_order k), hfull,
      accepts_full k, if_pos rfl, hl]
  have htext := render_template env k l text hren
  refine ⟨htext, ?_, ?_⟩
  · have hlen := scan_ret_le (parseFormat k.readFormat) buffer []
    have hne : (sscanf buffer k.readFormat).vals ≠ [] := by
      intro he
      unfold sscanf at h1 he
      rw [he] at hlen
      simp only [List.length_nil] at hlen
      omega
    rcases scan_head_num (parseFormat k.readFormat) buffer (format_firstNumeric k) with h0 | h0
    · exact absurd h0 hne
    · obtain ⟨n, rest, hv⟩ := h0
      obtain ⟨xs, hxs, hnot⟩ := readArgs_nId k
      have hv2 : (sscanf buffer k.readFormat).vals = Val.num n :: rest := hv
      have hnId : l.nId = n := by
        rw [hl, hxs, hv2]
        simp only [Locals.store]
        rw [store_nId xs rest _ hnot]
        rfl
      exact ⟨rest, by rw [hv2, hnId]⟩
  · obtain ⟨s1, hs1, hlog⟩ := deliver_log ok l.nId text s tr hn
    refine ⟨s1, ?_, ?_⟩
    · simp only [Send, hsel, hren]
      exact hs1
    · rw [hlog, htext]

theorem C11_command_templates_witness :
    "takeAttempt| -t3| -nAlice| -sLock| -T-1| 31| 42|\n".toList =
        commandText Kind.takeAttempt.name
          (Kind.takeAttempt.template (valuesOf sampleEnv sampleTake)) ∧
      (∃ rest, (sscanf sampleTakeAttempt Kind.takeAttempt.readFormat).vals =
        Val.num sampleTake.nId :: rest) ∧
      ∃ s1, Send sampleEnv zeroLocals true sampleTakeAttempt oneConnected = some s1 ∧
        s1.log = oneConnected.log ++ [Event.write sampleTake.nId 4
          (commandText Kind.takeAttempt.name
            (Kind.takeAttempt.template (valuesOf sampleEnv sampleTake)))
          (writeSucceeds 4 true)] :=
  C11_command_templates sampleEnv zeroLocals true sampleTakeAttempt oneConnected
    Kind.takeAttempt sampleTake "takeAttempt| -t3| -nAlice| -sLock| -T-1| 31| 42|\n".toList
    { status := Status.CONNECTED, port := 65535, sock := 4 }
    (by decide) (by decide) (by decide) rfl

/-! ## Time rebasing -/

theorem timeArg_wrap (env : Env) (t : Nat) (h1 : t < 2 ^ 64) (h2 : env.beginTime < 2 ^ 64) :
    timeArg env t = Int.toNat (((t : Int) - (env.beginTime : Int)) % 2 ^ 64) / 1000000 := by
  unfold timeArg
  have h3 : (t + 2 ^ 64 - env.beginTime % 2 ^ 64) % 2 ^ 64 =
      Int.toNat (((t : Int) - (env.beginTime : Int)) % 2 ^ 64) := by
    omega
  rw [h3]

theorem timeArg_mono (env : Env) (t1 t2 : Nat) (h0 : env.beginTime ≤ t1) (h1 : t1 ≤ t2) :
    (t1 - env.beginTime) / 1000000 ≤ (t2 - env.beginTime) / 1000000 :=
  Nat.div_le_div_right (by omega)

/-- C18, as stated, fails: with start time 2^64 - 1 a record with time 0 is selected, its
time is before the start time, and the wrapped difference is 1, so the `-t` field is `0`, not
a positive number. -/
theorem C18_counterexample :
    ¬ ∀ (env : Env) (junk : Locals) (buffer : List Char) (k : Kind) (l : Locals)
        (text : List Char),
        select Kind.order buffer junk = some (k, l) → render env k l = some text →
        l.time < env.beginTime → env.beginTime < 2 ^ 64 →
        tField text = some (decimal
            (Int.toNat (((l.time : Int) - (env.beginTime : Int)) % 2 ^ 64) / 1000000)) ∧
          0 < Int.toNat (((l.time : Int) - (env.beginTime : Int)) % 2 ^ 64) / 1000000 := by
  intro h
  have h1 := (h latestEnv zeroLocals earlyMessageSent Kind.messageSent earlyLocals
    "messageSent| -t0| -nAlice| -i5| 10| 2| Ack|\n".toList (by decide) (by decide) (by decide)
    (by decide)).2
  exact absurd h1 (by decide)

/-- C18 (amended): for a selected record whose time `t` is before the start time, the `-t`
field is the decimal text of `((t - beginTime) mod 2^64) / 1000000`, which is never negative
and is positive exactly when `beginTime - t` is at most `2^64 - 1000000`; for records whose
times are not before the start time, the value in the `-t` field is `(t - beginTime) / 1000000`
and does not decrease when `t` grows. -/
theorem C18_time_wraps (env : Env) (junk : Locals) (buffer : List Char) (k : Kind)
    (l : Locals) (text : List Char)
    (hsel : select Kind.order buffer junk = some (k, l)) (hren : render env k l = some text)
    (h64 : l.time < 2 ^ 64) (hb : env.beginTime < 2 ^ 64) :
    (l.time < env.beginTime →
      tField text = some (decimal
          (Int.toNat (((l.time : Int) - (env.beginTime : Int)) % 2 ^ 64) / 1000000)) ∧
        (0 < Int.toNat (((l.time : Int) - (env.beginTime : Int)) % 2 ^ 64) / 1000000 ↔
          env.beginTime - l.time ≤ 2 ^ 64 - 1000000)) ∧
      (env.beginTime ≤ l.time →
        ∀ (junk2 : Locals) (buffer2 : List Char) (k2 : Kind) (l2 : Locals)
          (text2 : List Char),
          select Kind.order buffer2 junk2 = some (k2, l2) → render env k2 l2 = some text2 →
          l.time ≤ l2.time → l2.time < 2 ^ 64 →
          tField text = some (decimal ((l.time - env.beginTime) / 1000000)) ∧
            tField text2 = some (decimal ((l2.time - env.beginTime) / 1000000)) ∧
            (l.time - env.beginTime) / 1000000 ≤ (l2.time - env.beginTime) / 1000000) := by
  have _ := hsel
  refine ⟨fun hlt => ⟨?_, ?_⟩, ?_⟩
  · rw [tField_render env k l text hren, timeArg_wrap env l.time h64 hb]
  · omega
  · intro hle junk2 buffer2 k2 l2 text2 _ hren2 h12 h264
    refine ⟨?_, ?_, timeArg_mono env l.time l2.time hle h12⟩
    · rw [tField_render env k l text hren, timeArg_of_le env l.time hle h64]
    · rw [tField_render env k2 l2 text2 hren2,
        timeArg_of_le env l2.time (Nat.le_trans hle h12) h264]

theorem C18_time_wraps_witness :
    tField "messageSent| -t18446744072709| -nAlice| -i5| 10| 2| Ack|\n".toList =
        some (decimal (Int.toNat (((sampleLocals.time : Int) - (lateEnv.beginTime : Int))
          % 2 ^ 64) / 1000000)) ∧
      (0 < Int.toNat (((sampleLocals.time : Int) - (lateEnv.beginTime : Int)) % 2 ^ 64)
          / 1000000 ↔
        lateEnv.beginTime - sampleLocals.time ≤ 2 ^ 64 - 1000000) :=
  (C18_time_wraps lateEnv zeroLocals sampleMessageSent Kind.messageSent sampleLocals
    "messageSent| -t18446744072709| -nAlice| -i5| 10| 2| Ack|\n".toList (by decide)
    (by decide) (by decide) (by decide)).1 (by decide)

end Demoddix
